import Mathlib

/-!
QuaC Python toolkit: model composition and run orchestration

A shallow embedding of `src/python/toolkit.c` (the CPython extension module
`quac`).  The toolkit is a thin layer over the QuaC solver library: every
method validates its arguments, reads the instance record and then issues
calls into the library (`add_lin_term`, `add_ham_term`, `create_qvec_sys`,
`time_step_sys`, ...).  The library itself is an external collaborator whose
sources lie outside `toolkit.c`, so a method is
embedded as a function from the object record and the parsed arguments to

* the Python error indicator after the call,
* the object record after the call, and
* the ordered list of library calls the method issued,

or to `Outcome.undefined` when the C code reads the `qubits` array outside its
bounds (or while it is `NULL`).  What the library does with the calls (term
lists, gate sequence) is modelled from the specification, in definitions that
are marked as such.
-/

namespace QuaC

/-! ## Scalars -/

/-- Arithmetic of the C type `double` as far as `toolkit.c` uses it: `+`, `*`,
`/`, the literals `0`, `1`, `0.5`, `2`, `-1.0` and the constant `M_PI` of
`math.h`.  The carrier is left abstract; the only law assumed is that
multiplying by `1.0` is exact, which holds for IEEE 754 doubles. -/
class CDouble (R : Type) extends Add R, Mul R, Div R, Zero R, One R where
  /-- The literal `0.5`. -/
  half : R
  /-- The literal `2`. -/
  two : R
  /-- The literal `-1.0`. -/
  neg_one : R
  /-- The constant `M_PI` of `math.h`. -/
  M_PI : R
  /-- Multiplication by `1.0` is exact. -/
  one_mul_exact : ∀ x : R, (1 : R) * x = x

/-- The C type `_Complex double` (and CPython's `Py_complex`, which has the
same layout: real part first). -/
structure CComplex (R : Type) where
  re : R
  im : R
deriving DecidableEq, Repr

/-- Conversion of a `double` to `_Complex double` (`return 1.0;` in a function
returning `_Complex double`). -/
def CComplex.ofReal {R : Type} [CDouble R] (x : R) : CComplex R := ⟨x, 0⟩

/-- Product of a `double` with a `_Complex double` (C11 Annex G: both parts are
scaled). -/
def CComplex.scale {R : Type} [CDouble R] (a : R) (z : CComplex R) : CComplex R :=
  ⟨a * z.re, a * z.im⟩

/-- Rational numbers as a carrier for concrete evaluations; `M_PI` is the
decimal literal of `math.h`. -/
instance instCDoubleRat : CDouble ℚ where
  half := 1 / 2
  two := 2
  neg_one := -1
  M_PI := 3.14159265358979323846
  one_mul_exact := fun x => one_mul x

/-! ## Operators -/

/-- The algebraic role of an operator handle. -/
inductive op_role where
  | lowering
  | raising
  | number
deriving DecidableEq, Repr

/-- Modelled from the spec: the `operator` handle of `operators.h` (absent from
the sources).  An operator identifies one finite-level subsystem (its position
in creation order and its level count) and an algebraic role; the handle
returned by `create_op_sys` is the lowering operator, and `->dag`, `->n` are the
paired raising and number views of the same subsystem. -/
structure operator where
  subsystem : Nat
  levels : Int
  role : op_role
deriving DecidableEq, Repr

/-- The `->dag` view (raising operator) of an operator handle. -/
def operator.dag (op : operator) : operator := { op with role := op_role.raising }

/-- The `->n` view (number operator) of an operator handle. -/
def operator.n (op : operator) : operator := { op with role := op_role.number }

/-! ## Python objects -/

/-- One element of an argument tuple built by `Py_BuildValue`: the instance
object itself (`O`), a C long (`l`) or a C double (`d`). -/
inductive PyArg (R : Type) where
  | self_object
  | long (n : Int)
  | double (x : R)
deriving DecidableEq, Repr

/-- What a Python call hands back, as far as `PyComplex_AsCComplex` tells the
results apart: a complex number, a real number, or an object that cannot be
converted to a complex number. -/
inductive PyValue (R : Type) where
  | complex (z : CComplex R)
  | real (x : R)
  | other
deriving DecidableEq, Repr

/-- A Python object held by the toolkit: `None`, a callable (a function from
the argument tuple to its result, `none` when the call raises), or some other,
non-callable object. -/
inductive PyObject (R : Type) where
  | Py_None
  | callable (f : List (PyArg R) → Option (PyValue R))
  | plain

/-- `PyObject_CallObject`: the result of the call, or `none` (a `NULL` return
with the error indicator set) when the callee raises or the object is not
callable. -/
def PyObject_CallObject {R : Type} (callable_object : PyObject R) (args : List (PyArg R)) :
    Option (PyValue R) :=
  match callable_object with
  | PyObject.callable f => f args
  | _ => none

/-- `PyComplex_AsCComplex`: the value of a complex object, a real number with
zero imaginary part, and `-1.0` (with an error set) for anything else. -/
def PyComplex_AsCComplex {R : Type} [CDouble R] : PyValue R → CComplex R
  | PyValue.complex z => z
  | PyValue.real x => ⟨x, 0⟩
  | PyValue.other => ⟨CDouble.neg_one, 0⟩

/-- The exception classes raised by the toolkit. -/
inductive PyExc where
  | RuntimeError
  | TypeError
deriving DecidableEq, Repr

/-- The error indicator set by `PyErr_SetString`. -/
structure PyErr where
  exc : PyExc
  msg : String
deriving DecidableEq, Repr

/-! ## Library calls -/

/-- The gate vocabulary of `quantum_gates.h` as named in `QuaCCircuit_add_gate`. -/
inductive gate_type where
  | CZX | CmZ | CZ | CXZ | CNOT
  | HADAMARD | SIGMAX | SIGMAY | SIGMAZ | EYE
  | RX | RY | RZ | U1 | U2 | U3
deriving DecidableEq, Repr

/-- A call from the toolkit into the QuaC library, with the arguments the
toolkit passes.  The `qsystem`, `qvec` and `circuit` handle arguments are left
out: every call of a method is made on the handles of the object the method is
invoked on.  The evaluator passed to `add_ham_term_time_dep` is always
`time_dep_cb`, so only its context object is recorded. -/
inductive EngineCall (R : Type) where
  | initialize_system
  | create_op_sys (number_of_levels : Int)
  | add_lin_term (a : R) (ops : List operator)
  | add_ham_term (a : R) (ops : List operator)
  | add_ham_term_time_dep (a : R) (ctx : PyObject R) (ops : List operator)
  | create_qvec_sys
  | add_to_qvec_loc (alpha : R) (loc : Int)
  | assemble_qvec
  | construct_matrix
  | set_ts_monitor_ctx
  | time_step_sys (start_time end_time dt : R) (max_steps : Int)
  | add_gate_to_circuit_sys (time : R) (gate : gate_type) (qubits : List Int) (angles : List R)

/-- What a returning method leaves behind: the Python error indicator (`none`
when no error is set), the object record, and the library calls issued, in
order. -/
structure Ret (σ : Type) (R : Type) where
  err : Option PyErr
  self : σ
  calls : List (EngineCall R)

/-- Result of running a method: it returns, or the C code performs an invalid
read of the `qubits` array (undefined behaviour, in practice a crash or a
garbage operand). -/
inductive Outcome (σ : Type) (R : Type) where
  | ret (r : Ret σ R)
  | undefined

/-! ## The instance object -/

/-- The handle to the evolving state (`qvec rho`); `NULL` is `none`. -/
inductive qvec where
  | handle
deriving DecidableEq, Repr

/-- The C struct `QuaCInstance`.  `system` is an immutable handle into the
library and `nid`, `np` are copies of library globals; they are not read by any
method modelled here and are left out.  `qubits` is `none` for `NULL` and
otherwise the array allocated by `create_qubits`; `ts_monitor_callback` is
`none` for `NULL` (the member can be deleted from Python). -/
structure QuaCInstance (R : Type) where
  num_qubits : Int
  num_levels : Int
  qubits : Option (List operator)
  rho : Option qvec
  ts_monitor_callback : Option (PyObject R)

/-- The read `self->qubits[qubit]`: defined only when the array exists and the
index lies inside it. -/
def QuaCInstance.qubit {R : Type} (self : QuaCInstance R) (qubit : Int) : Option operator :=
  match self.qubits with
  | none => none
  | some qs => if 0 ≤ qubit then qs.get? qubit.toNat else none

/-- `QuaCInstance_new` after the initialization check: the freshly allocated
record. -/
def QuaCInstance.fresh (R : Type) : QuaCInstance R :=
  { num_qubits := 0, num_levels := 0, qubits := none, rho := none,
    ts_monitor_callback := some PyObject.Py_None }

/-- `QuaCInstance_new`: fails unless the module flag `quac_initialized` is set;
otherwise allocates the record and initializes the library system. -/
def QuaCInstance_new (R : Type) (quac_initialized : Int) : Ret (Option (QuaCInstance R)) R :=
  if quac_initialized = 0 then
    ⟨some ⟨PyExc.RuntimeError, "QuaC must be initialized first!"⟩, none, []⟩
  else
    ⟨none, some (QuaCInstance.fresh R), [EngineCall.initialize_system]⟩

/-- `QuaCInstance_init` (`__init__`, format `|lO`): stores `num_qubits` when
given and replaces the observer when `ts_monitor` is given. -/
def QuaCInstance_init {R : Type} (self : QuaCInstance R) (num_qubits : Option Int)
    (tsm : Option (PyObject R)) : Ret (QuaCInstance R) R :=
  let self1 := match num_qubits with
    | some n => { self with num_qubits := n }
    | none => self
  let self2 := match tsm with
    | some cb => { self1 with ts_monitor_callback := some cb }
    | none => self1
  ⟨none, self2, []⟩

/-- Modelled from the spec: the handles that the library hands back for `count`
successive `create_op_sys` calls on a system without operators: the operator of
subsystem `i` for the `i`-th call. -/
def created_ops (number_of_levels : Int) (count : Nat) : List operator :=
  (List.range count).map (fun i => ⟨i, number_of_levels, op_role.lowering⟩)

/-- `QuaCInstance_create_qubits` (format `|i`).  `num_levels` is overwritten
before the already-created check.  A non-positive `num_qubits` allocates no
operator. -/
def QuaCInstance_create_qubits {R : Type} (self : QuaCInstance R) (num_levels : Option Int) :
    Ret (QuaCInstance R) R :=
  let self1 := { self with num_levels := num_levels.getD 2 }
  match self1.qubits with
  | some _ =>
    ⟨some ⟨PyExc.RuntimeError, "qbits for this QuaC instance have already been created!"⟩,
      self1, []⟩
  | none =>
    if 0 < self1.num_qubits then
      ⟨none, { self1 with qubits := some (created_ops self1.num_levels self1.num_qubits.toNat) },
        List.replicate self1.num_qubits.toNat (EngineCall.create_op_sys self1.num_levels)⟩
    else
      ⟨none, self1, []⟩

/-! ## Term-adding methods -/

/-- `QuaCInstance_add_lindblad_emission` (format `id`).  The index is used
without any range check. -/
def QuaCInstance_add_lindblad_emission {R : Type} (self : QuaCInstance R) (qubit : Int)
    (gamma_1 : R) : Outcome (QuaCInstance R) R :=
  match self.qubit qubit with
  | none => Outcome.undefined
  | some q => Outcome.ret ⟨none, self, [EngineCall.add_lin_term gamma_1 [q]]⟩

/-- `QuaCInstance_add_lindblad_dephasing` (format `id`). -/
def QuaCInstance_add_lindblad_dephasing {R : Type} (self : QuaCInstance R) (qubit : Int)
    (gamma_2 : R) : Outcome (QuaCInstance R) R :=
  if qubit ≥ self.num_qubits then
    Outcome.ret ⟨some ⟨PyExc.RuntimeError, "qubit index is out of range"⟩, self, []⟩
  else
    match self.qubit qubit with
    | none => Outcome.undefined
    | some q => Outcome.ret ⟨none, self, [EngineCall.add_lin_term gamma_2 [q.n]]⟩

/-- `QuaCInstance_add_lindblad_thermal_coupling` (format `id|d`); the default
of `n_therm` is `0.5`. -/
def QuaCInstance_add_lindblad_thermal_coupling {R : Type} [CDouble R] (self : QuaCInstance R)
    (qubit : Int) (therm_1 : R) (n_therm_arg : Option R) : Outcome (QuaCInstance R) R :=
  let n_therm := n_therm_arg.getD CDouble.half
  if qubit ≥ self.num_qubits then
    Outcome.ret ⟨some ⟨PyExc.RuntimeError, "qubit index is out of range"⟩, self, []⟩
  else
    match self.qubit qubit with
    | none => Outcome.undefined
    | some q =>
      Outcome.ret ⟨none, self,
        [EngineCall.add_lin_term (therm_1 * (n_therm + 1)) [q],
         EngineCall.add_lin_term (therm_1 * n_therm) [q.dag]]⟩

/-- `QuaCInstance_add_lindblad_cross_coupling` (format `iid`). -/
def QuaCInstance_add_lindblad_cross_coupling {R : Type} (self : QuaCInstance R)
    (qubit1 qubit2 : Int) (coup_1 : R) : Outcome (QuaCInstance R) R :=
  if qubit1 ≥ self.num_qubits then
    Outcome.ret ⟨some ⟨PyExc.RuntimeError, "qubit1 index is out of range"⟩, self, []⟩
  else if qubit2 ≥ self.num_qubits then
    Outcome.ret ⟨some ⟨PyExc.RuntimeError, "qubit2 index is out of range"⟩, self, []⟩
  else
    match self.qubit qubit1, self.qubit qubit2 with
    | some q1, some q2 =>
      Outcome.ret ⟨none, self,
        [EngineCall.add_lin_term coup_1 [q1.dag, q2],
         EngineCall.add_lin_term coup_1 [q1, q2.dag]]⟩
    | _, _ => Outcome.undefined

/-- `QuaCInstance_add_ham_num` (format `id`). -/
def QuaCInstance_add_ham_num {R : Type} (self : QuaCInstance R) (qubit : Int) (coeff : R) :
    Outcome (QuaCInstance R) R :=
  if qubit ≥ self.num_qubits then
    Outcome.ret ⟨some ⟨PyExc.RuntimeError, "qubit index is out of range"⟩, self, []⟩
  else
    match self.qubit qubit with
    | none => Outcome.undefined
    | some q => Outcome.ret ⟨none, self, [EngineCall.add_ham_term coeff [q.n]]⟩

/-- `QuaCInstance_add_ham_cross_coupling` (format `iid`). -/
def QuaCInstance_add_ham_cross_coupling {R : Type} (self : QuaCInstance R)
    (qubit1 qubit2 : Int) (coup_1 : R) : Outcome (QuaCInstance R) R :=
  if qubit1 ≥ self.num_qubits then
    Outcome.ret ⟨some ⟨PyExc.RuntimeError, "qubit1 index is out of range"⟩, self, []⟩
  else if qubit2 ≥ self.num_qubits then
    Outcome.ret ⟨some ⟨PyExc.RuntimeError, "qubit2 index is out of range"⟩, self, []⟩
  else
    match self.qubit qubit1, self.qubit qubit2 with
    | some q1, some q2 =>
      Outcome.ret ⟨none, self,
        [EngineCall.add_ham_term coup_1 [q1.dag, q2],
         EngineCall.add_ham_term coup_1 [q1, q2.dag]]⟩
    | _, _ => Outcome.undefined

/-- `QuaCInstance_add_ham_num_time_dep` (format `iO`): the caller's object
`coeff` is handed to the library as the context of `time_dep_cb`, with base
coefficient `1.0`. -/
def QuaCInstance_add_ham_num_time_dep {R : Type} [CDouble R] (self : QuaCInstance R)
    (qubit : Int) (coeff : PyObject R) : Outcome (QuaCInstance R) R :=
  if qubit ≥ self.num_qubits then
    Outcome.ret ⟨some ⟨PyExc.RuntimeError, "qubit index is out of range"⟩, self, []⟩
  else
    match self.qubit qubit with
    | none => Outcome.undefined
    | some q => Outcome.ret ⟨none, self, [EngineCall.add_ham_term_time_dep 1 coeff [q.n]]⟩

/-- `QuaCInstance_add_ham_cross_coupling_time_dep` (format `iiO`). -/
def QuaCInstance_add_ham_cross_coupling_time_dep {R : Type} [CDouble R] (self : QuaCInstance R)
    (qubit1 qubit2 : Int) (coup_1 : PyObject R) : Outcome (QuaCInstance R) R :=
  if qubit1 ≥ self.num_qubits then
    Outcome.ret ⟨some ⟨PyExc.RuntimeError, "qubit1 index is out of range"⟩, self, []⟩
  else if qubit2 ≥ self.num_qubits then
    Outcome.ret ⟨some ⟨PyExc.RuntimeError, "qubit2 index is out of range"⟩, self, []⟩
  else
    match self.qubit qubit1, self.qubit qubit2 with
    | some q1, some q2 =>
      Outcome.ret ⟨none, self,
        [EngineCall.add_ham_term_time_dep 1 coup_1 [q1.dag, q2],
         EngineCall.add_ham_term_time_dep 1 coup_1 [q1, q2.dag]]⟩
    | _, _ => Outcome.undefined

/-- The evaluator `time_dep_cb(t, ctx)` registered with every time-dependent
term: `1.0` for the context `None` and when the call fails, otherwise the
result of the call converted by `PyComplex_AsCComplex`. -/
def time_dep_cb {R : Type} [CDouble R] (t : R) (ctx : PyObject R) : CComplex R :=
  match ctx with
  | PyObject.Py_None => CComplex.ofReal 1
  | tdf =>
    match PyObject_CallObject tdf [PyArg.double t] with
    | some result => PyComplex_AsCComplex result
    | none => CComplex.ofReal 1

/-! ## Density matrix and run -/

/-- `QuaCInstance_create_dm` (`create_density_matrix`, no arguments). -/
def QuaCInstance_create_dm {R : Type} [CDouble R] (self : QuaCInstance R) :
    Ret (QuaCInstance R) R :=
  match self.rho with
  | some _ =>
    ⟨some ⟨PyExc.RuntimeError,
      "The density matrix for this QuaC instance has already been created!"⟩, self, []⟩
  | none =>
    ⟨none, { self with rho := some qvec.handle },
      [EngineCall.create_qvec_sys, EngineCall.add_to_qvec_loc 1 0, EngineCall.assemble_qvec]⟩

/-- The C constant `INT_MAX` (32-bit `int`). -/
def INT_MAX : Int := 2147483647

/-- `QuaCInstance_run` (format `d|ddl`): `dt` defaults to `1.0`, `start_time`
to `0.0` and `max_steps` to `INT_MAX-1`. -/
def QuaCInstance_run {R : Type} [CDouble R] (self : QuaCInstance R) (end_time : R)
    (dt_arg start_time_arg : Option R) (max_steps_arg : Option Int) :
    Ret (QuaCInstance R) R :=
  let dt := dt_arg.getD 1
  let start_time := start_time_arg.getD 0
  let max_steps := max_steps_arg.getD (INT_MAX - 1)
  match self.rho with
  | none =>
    ⟨some ⟨PyExc.RuntimeError,
      "The density matrix for this QuaC instance has not been created!"⟩, self, []⟩
  | some _ =>
    ⟨none, self,
      [EngineCall.construct_matrix, EngineCall.set_ts_monitor_ctx,
       EngineCall.time_step_sys start_time end_time dt max_steps]⟩

/-- What one invocation of the step monitor leaves behind: the status handed
back to the library, the argument tuples with which the observer was called,
and whether a Python error is left pending. -/
structure MonitorRet (R : Type) where
  status : Int
  invoked : List (List (PyArg R))
  error_pending : Bool

/-- The step monitor `ts_monitor(ts, step, time, rho, ctx)` registered by `run`;
`ctx` is the instance. -/
def ts_monitor {R : Type} (self : QuaCInstance R) (step : Int) (time : R) : MonitorRet R :=
  match self.ts_monitor_callback with
  | none => ⟨0, [], false⟩
  | some PyObject.Py_None => ⟨0, [], false⟩
  | some cb =>
    let arglist := [PyArg.self_object, PyArg.long step, PyArg.double time]
    match PyObject_CallObject cb arglist with
    | some _ => ⟨0, [arglist], false⟩
    | none => ⟨0, [arglist], true⟩

/-! ## The circuit object -/

/-- Modelled from the spec: a gate of a circuit, carrying its type, the target
subsystem index(es), its real parameters (angles) and its time offset. -/
structure gate (R : Type) where
  type : gate_type
  qubits : List Int
  angles : List R
  time : R

/-- Modelled from the spec: the `circuit` struct of `quantum_circuits.h` (absent
from the sources): an ordered sequence of gates plus a start time.  The member
`num_gates` read by the toolkit is the length of the sequence. -/
structure circuit (R : Type) where
  start_time : R
  gate_list : List (gate R)

/-- Modelled from the spec: `add_gate_to_circuit_sys` of `quantum_circuits.c`
(absent from the sources) appends the gate to the ordered sequence. -/
def add_gate_to_circuit_sys {R : Type} (c : circuit R) (time : R) (g : gate_type)
    (qubits : List Int) (angles : List R) : circuit R :=
  { c with gate_list := c.gate_list ++ [⟨g, qubits, angles, time⟩] }

/-- The C struct `QuaCCircuit`. -/
structure QuaCCircuit (R : Type) where
  c : circuit R

/-- The test `!strcasecmp(a, b)`: the two strings are equal once ASCII upper
case letters are folded to lower case. -/
def strcasecmp_zero (a b : String) : Bool :=
  a.data.map Char.toLower == b.data.map Char.toLower

/-- The chain of name comparisons at the head of `QuaCCircuit_add_gate`; `none`
is the final `else` (unknown gate). -/
def gate_of_name (gate_name : String) : Option gate_type :=
  if strcasecmp_zero gate_name "CZX" then some gate_type.CZX
  else if strcasecmp_zero gate_name "CmZ" then some gate_type.CmZ
  else if strcasecmp_zero gate_name "CZ" then some gate_type.CZ
  else if strcasecmp_zero gate_name "CXZ" then some gate_type.CXZ
  else if strcasecmp_zero gate_name "CNOT" then some gate_type.CNOT
  else if strcasecmp_zero gate_name "H" then some gate_type.HADAMARD
  else if strcasecmp_zero gate_name "X" then some gate_type.SIGMAX
  else if strcasecmp_zero gate_name "Y" then some gate_type.SIGMAY
  else if strcasecmp_zero gate_name "Z" then some gate_type.SIGMAZ
  else if strcasecmp_zero gate_name "I" then some gate_type.EYE
  else if strcasecmp_zero gate_name "RX" then some gate_type.RX
  else if strcasecmp_zero gate_name "RY" then some gate_type.RY
  else if strcasecmp_zero gate_name "RZ" then some gate_type.RZ
  else if strcasecmp_zero gate_name "U1" then some gate_type.U1
  else if strcasecmp_zero gate_name "U2" then some gate_type.U2
  else if strcasecmp_zero gate_name "U3" then some gate_type.U3
  else none

/-- `QuaCCircuit_add_gate` (format `si|idddd`).  `code` gives the integer values
of the `gate_type` enumerators, which are declared in `quantum_gates.h` (absent
from the sources); `qubit2` defaults to `-1` and the angles and the time to
`0`. -/
def QuaCCircuit_add_gate {R : Type} [CDouble R] (code : gate_type → Int) (self : QuaCCircuit R)
    (gate_name : String) (qubit1 : Int) (qubit2_arg : Option Int)
    (theta_arg phi_arg lam_arg time_arg : Option R) : Ret (QuaCCircuit R) R :=
  let qubit2 := qubit2_arg.getD (-1)
  let theta := theta_arg.getD 0
  let phi := phi_arg.getD 0
  let lambda := lam_arg.getD 0
  let time := time_arg.getD 0
  let add := fun (g : gate_type) (qubits : List Int) (angles : List R) =>
    (⟨none, { self with c := add_gate_to_circuit_sys self.c time g qubits angles },
      [EngineCall.add_gate_to_circuit_sys time g qubits angles]⟩ : Ret (QuaCCircuit R) R)
  match gate_of_name gate_name with
  | none => ⟨some ⟨PyExc.RuntimeError, "Unknown gate type!"⟩, self, []⟩
  | some g =>
    if code g < 0 then
      if qubit2 < 0 then
        ⟨some ⟨PyExc.RuntimeError, "qubit2 must be specified for a two-qubit gate!"⟩, self, []⟩
      else
        add g [qubit1, qubit2] []
    else if code g = code gate_type.U3 then
      add g [qubit1] [theta, phi, lambda]
    else if code g = code gate_type.U2 then
      add g [qubit1] [CDouble.M_PI / CDouble.two, phi, lambda]
    else if code g = code gate_type.U1 then
      add g [qubit1] [0, 0, lambda]
    else
      add g [qubit1] [theta]

/-- Modelled from the spec: enumerator values for `gate_type`, whose
declaration in `quantum_gates.h` is absent from the sources.  The toolkit only
tests the sign of a value and compares values with each other: the two-qubit
gates of the vocabulary (CNOT, CZ, CXZ, CZX, CmZ) are the negative ones, every
other gate is positive, and all values are distinct. -/
def gate_type.toInt : gate_type → Int
  | gate_type.CZX => -5
  | gate_type.CmZ => -4
  | gate_type.CZ => -3
  | gate_type.CXZ => -2
  | gate_type.CNOT => -1
  | gate_type.HADAMARD => 1
  | gate_type.SIGMAX => 2
  | gate_type.SIGMAY => 3
  | gate_type.SIGMAZ => 4
  | gate_type.EYE => 5
  | gate_type.RX => 6
  | gate_type.RY => 7
  | gate_type.RZ => 8
  | gate_type.U1 => 9
  | gate_type.U2 => 10
  | gate_type.U3 => 11

/-- The two-qubit gates of the vocabulary. -/
def gate_type.two_qubit : gate_type → Bool
  | gate_type.CZX => true
  | gate_type.CmZ => true
  | gate_type.CZ => true
  | gate_type.CXZ => true
  | gate_type.CNOT => true
  | _ => false

/-! ## The library's term lists -/

/-- Modelled from the spec: a term is a scalar coefficient times a product of
one or two operator references; a time-dependent term additionally carries the
context object handed unchanged to its evaluator. -/
structure term (R : Type) where
  coefficient : R
  ops : List operator
  ctx : Option (PyObject R)

/-- Modelled from the spec: the part of a `qsystem` (`qsystem.h`, absent from
the sources) that the composition calls act on: the ordered Hamiltonian term
list and the ordered Lindblad term list. -/
structure qsystem (R : Type) where
  ham : List (term R)
  lin : List (term R)

/-- Modelled from the spec: the effect of one library call on the term lists.
`add_lin_term` appends to the Lindblad list, `add_ham_term` and
`add_ham_term_time_dep` append to the Hamiltonian list, no other call touches
the lists. -/
def qsystem.apply {R : Type} (sys : qsystem R) : EngineCall R → qsystem R
  | EngineCall.add_lin_term a ops => { sys with lin := sys.lin ++ [⟨a, ops, none⟩] }
  | EngineCall.add_ham_term a ops => { sys with ham := sys.ham ++ [⟨a, ops, none⟩] }
  | EngineCall.add_ham_term_time_dep a ctx ops =>
    { sys with ham := sys.ham ++ [⟨a, ops, some ctx⟩] }
  | _ => sys

/-- The term lists after a sequence of library calls. -/
def qsystem.after {R : Type} (sys : qsystem R) (calls : List (EngineCall R)) : qsystem R :=
  calls.foldl qsystem.apply sys

/-- Modelled from the spec: the effective coefficient of a term at time `t` is
its base coefficient for a static term and `base_coefficient * evaluator(t,
context)` for a time-dependent one; the evaluator registered by the toolkit is
`time_dep_cb`. -/
def term.effective_coefficient {R : Type} [CDouble R] (tm : term R) (t : R) : CComplex R :=
  match tm.ctx with
  | none => CComplex.ofReal tm.coefficient
  | some ctx => CComplex.scale tm.coefficient (time_dep_cb t ctx)

/-- Modelled from the spec: two operand lists denote the same operator product
when they are equal, or when they list the same two operators in the two
possible orders and the operators belong to different subsystems (such
operators act on different factors of the state space and commute). -/
def same_product (a b : List operator) : Bool :=
  a == b ||
  match a, b with
  | [x, y], [u, v] => x == v && y == u && x.subsystem != y.subsystem
  | _, _ => false

/-- An instance whose qubits have been created: the `qubits` array exists, has
`num_qubits` entries, and entry `i` is the operator of subsystem `i`, as
`create_qubits` leaves it. -/
def QuaCInstance.qubits_created {R : Type} (self : QuaCInstance R) : Bool :=
  match self.qubits with
  | none => false
  | some qs =>
    decide ((qs.length : Int) = self.num_qubits) &&
    decide (qs.map operator.subsystem = List.range qs.length)

/-- The term lists after a method call on a system whose lists were `sys`;
`none` when the call does not return. -/
def Outcome.system_after {σ R : Type} (o : Outcome σ R) (sys : qsystem R) : Option (qsystem R) :=
  match o with
  | Outcome.ret r => some (sys.after r.calls)
  | Outcome.undefined => none

/-! ## Concrete objects used in evaluations -/

/-- A two-qubit instance over the rationals: `Instance(num_qubits=2)` followed
by `create_qubits()`. -/
def two_qubits : QuaCInstance ℚ :=
  (QuaCInstance_create_qubits (QuaCInstance_init (QuaCInstance.fresh ℚ) (some 2) none).self
    none).self

/-- A one-qubit instance over the rationals: `Instance(num_qubits=1)` followed
by `create_qubits()`. -/
def one_qubit : QuaCInstance ℚ :=
  (QuaCInstance_create_qubits (QuaCInstance_init (QuaCInstance.fresh ℚ) (some 1) none).self
    none).self

/-- An instance on which `create_qubits` was never called although two qubits
were requested: `Instance(num_qubits=2)`. -/
def no_qubits : QuaCInstance ℚ :=
  (QuaCInstance_init (QuaCInstance.fresh ℚ) (some 2) none).self

/-- The two-qubit instance after `create_density_matrix()`. -/
def two_qubits_dm : QuaCInstance ℚ := (QuaCInstance_create_dm two_qubits).self

/-- An empty circuit starting at time `0`. -/
def empty_circuit : QuaCCircuit ℚ := ⟨⟨0, []⟩⟩

/-- Instance records that can be reached from a new instance without a call of
`create_density_matrix`: by `__init__`, by `create_qubits`, and by assigning or
deleting the writable members `num_qubits` and `ts_monitor`.  (The term-adding
methods and `run` hand back the record they were given.) -/
inductive without_dm {R : Type} : QuaCInstance R → Prop where
  | new : without_dm (QuaCInstance.fresh R)
  | init (s : QuaCInstance R) (n : Option Int) (tsm : Option (PyObject R)) :
      without_dm s → without_dm (QuaCInstance_init s n tsm).self
  | create_qubits (s : QuaCInstance R) (l : Option Int) :
      without_dm s → without_dm (QuaCInstance_create_qubits s l).self
  | set_num_qubits (s : QuaCInstance R) (n : Int) :
      without_dm s → without_dm { s with num_qubits := n }
  | set_ts_monitor (s : QuaCInstance R) (cb : Option (PyObject R)) :
      without_dm s → without_dm { s with ts_monitor_callback := cb }

/-- Modelled from the spec: the stepping loop of the library (`time_step_sys`,
absent from the sources) as seen from the registered monitor.  The library
reports the step events `(step, time)` in order, calling the monitor after each
step; a non-zero status from the monitor aborts the remaining steps.  The
result collects the status handed back last, all observer invocations and
whether a Python error was left pending. -/
def report_steps {R : Type} (monitor : Int → R → MonitorRet R) : List (Int × R) → MonitorRet R
  | [] => ⟨0, [], false⟩
  | (step, time) :: rest =>
    let r := monitor step time
    if r.status ≠ 0 then r
    else
      let r2 := report_steps monitor rest
      ⟨r2.status, r.invoked ++ r2.invoked, r.error_pending || r2.error_pending⟩

/-- An observer that raises on every call. -/
def raising_observer : PyObject ℚ := PyObject.callable (fun _ => none)

/-- The two-qubit instance with density matrix, re-initialised with the raising
observer: `__init__(ts_monitor=raising_observer)`. -/
def two_qubits_raising : QuaCInstance ℚ :=
  (QuaCInstance_init two_qubits_dm none (some raising_observer)).self

/-- A time-dependent coefficient: the callable `t ↦ t + 2i` (any other argument
tuple raises). -/
def ramp : PyObject ℚ :=
  PyObject.callable (fun args =>
    match args with
    | [PyArg.double t] => some (PyValue.complex ⟨t, 2⟩)
    | _ => none)

/-! ## Circuit import -/

/-- The three importers of `qasm_parser.h` that `initialize_and_read_qasm` can
dispatch to. -/
inductive importer where
  | quil_read
  | projectq_qasm_read
  | qiskit_qasm_read
deriving DecidableEq, Repr

/-- What `initialize_and_read_qasm` leaves behind: the Python error indicator,
the circuit object, the returned number (`None` is `none`) and the importer
calls made, each with the file name passed. -/
structure ReadRet (R : Type) where
  err : Option PyErr
  self : QuaCCircuit R
  value : Option Int
  invoked : List (importer × String)

/-- `QuaCCircuit_read_qasm` (`initialize_and_read_qasm`, format `ss`).  The
importers are external (absent from the sources): `read imp filename c` is the
number of qubits and the circuit that importer `imp` produces for the file when
it is handed the circuit `c`. -/
def QuaCCircuit_read_qasm {R : Type} (read : importer → String → circuit R → Int × circuit R)
    (self : QuaCCircuit R) (format filename : String) : ReadRet R :=
  let run := fun (imp : importer) =>
    (⟨none, { self with c := (read imp filename self.c).2 },
      some (read imp filename self.c).1, [(imp, filename)]⟩ : ReadRet R)
  if strcasecmp_zero format "quil" then
    run importer.quil_read
  else if strcasecmp_zero format "projectq" then
    run importer.projectq_qasm_read
  else if strcasecmp_zero format "qiskit" then
    run importer.qiskit_qasm_read
  else
    ⟨some ⟨PyExc.RuntimeError, "Unknown qasm format!"⟩, self, none, []⟩

/-- An importer stand-in for evaluations: every file describes three qubits and
a single Hadamard gate on qubit `0`, appended to the circuit. -/
def sample_read (_imp : importer) (_filename : String) (c : circuit ℚ) : Int × circuit ℚ :=
  (3, add_gate_to_circuit_sys c 0 gate_type.HADAMARD [0] [0])

/-! ## Module lifecycle -/

/-- A call made by the module-level functions: into the library
(`QuaC_initialize`, `QuaC_finalize`) or into the interpreter (`Py_AtExit`
registering `finalize_atexit`).  An entry `none` of `argv` is a slot of the
allocated vector that was never assigned. -/
inductive ModuleCall where
  | QuaC_initialize (argc : Int) (argv : List (Option String))
  | QuaC_finalize
  | Py_AtExit
deriving DecidableEq, Repr

/-- What a module-level function leaves behind: the static flag
`quac_initialized` and the calls made, in order. -/
structure ModuleRet where
  quac_initialized : Int
  calls : List ModuleCall
deriving DecidableEq, Repr

/-- The at-exit hook `finalize_atexit`: finalizes the library only while the
flag is set, and leaves the flag alone. -/
def finalize_atexit (quac_initialized : Int) : ModuleRet :=
  if quac_initialized ≠ 0 then ⟨quac_initialized, [ModuleCall.QuaC_finalize]⟩
  else ⟨quac_initialized, []⟩

/-- The module function `quac_finalize` (`finalize()`): finalizes the library
without looking at the flag, then clears the flag. -/
def quac_finalize (_quac_initialized : Int) : ModuleRet :=
  ⟨0, [ModuleCall.QuaC_finalize]⟩

/-- The unchecked read `PyList_GET_ITEM(argl, i)`: defined only when the list
exists and `i` lies inside it.  `sys.argv` is `none` when `PySys_GetObject`
finds no such object. -/
def PyList_GET_ITEM (argl : Option (List String)) (i : Nat) : Option String :=
  match argl with
  | none => none
  | some l => l.get? i

/-- The value of `argc` computed by `quac_initialize`: the length of `sys.argv`
when the list exists and is not empty, otherwise `1`. -/
def quac_initialize_argc (argl : Option (List String)) : Nat :=
  match argl with
  | none => 1
  | some l => if l.length > 0 then l.length else 1

/-- The loop `for (i = 0; i < argc; ++i) argv[i] = ...PyList_GET_ITEM(argl, i)`
of `quac_initialize`, with `remaining = argc - i` iterations to go; `none` when
a read leaves the list. -/
def quac_initialize_loop (argl : Option (List String)) :
    Nat → Nat → List (Option String) → Option (List (Option String))
  | 0, _, argv => some argv
  | remaining + 1, i, argv =>
    match PyList_GET_ITEM argl i with
    | none => none
    | some item => quac_initialize_loop argl remaining (i + 1) (argv.set i (some item))

/-- The module function `quac_initialize` (`initialize()`): builds `argv` from
`sys.argv`, initializes the library, sets the flag and registers the at-exit
hook.  The result is `none` when building `argv` reads outside `sys.argv`
(undefined behaviour). -/
def quac_initialize (argl : Option (List String)) : Option ModuleRet :=
  let argc := quac_initialize_argc argl
  let argv := (List.replicate argc (none : Option String)).set 0 (some "quac")
  match quac_initialize_loop argl argc 0 argv with
  | none => none
  | some argv1 =>
    some ⟨1, [ ModuleCall.QuaC_initialize argc argv1, ModuleCall.Py_AtExit]⟩

/-! ## Observer calls and state contents -/

/-- The calls of `PyObject_CallObject` made by one invocation of `ts_monitor`:
the callee and the argument tuple.  (`ts_monitor` above records the tuples
only.) -/
def ts_monitor_calls {R : Type} (self : QuaCInstance R) (step : Int) (time : R) :
    List (PyObject R × List (PyArg R)) :=
  match self.ts_monitor_callback with
  | none => []
  | some PyObject.Py_None => []
  | some cb => [(cb, [PyArg.self_object, PyArg.long step, PyArg.double time])]

/-- `QuaCInstance_get_bitstring_probs`: fails without a density matrix,
otherwise returns the list of the probabilities that the library's
`get_bitstring_probs` (absent from the sources) hands back for the state,
here the parameter `probs`. -/
def QuaCInstance_get_bitstring_probs {R : Type} (probs : List R) (self : QuaCInstance R) :
    Option PyErr × Option (List R) :=
  match self.rho with
  | none =>
    (some ⟨PyExc.RuntimeError,
      "The density matrix for this QuaC instance has not been created!"⟩, none)
  | some _ => (none, some probs)

/-- Modelled from the spec: the contents of the state behind a `qvec` handle,
as far as the toolkit determines them: the values added to it, by location and
in order (a location nothing was added to holds zero), and whether the state
has been assembled. -/
structure qvec_contents (R : Type) where
  written : List (Int × R)
  assembled : Bool
deriving DecidableEq, Repr

/-- Modelled from the spec: the effect of one library call on the state
contents (`none` before the state exists).  `create_qvec_sys` allocates a zero
state, `add_to_qvec_loc` adds a value at a location, `assemble_qvec` assembles;
no other call of the toolkit touches the contents. -/
def qvec_contents.apply {R : Type} (st : Option (qvec_contents R)) :
    EngineCall R → Option (qvec_contents R)
  | EngineCall.create_qvec_sys => some ⟨[], false⟩
  | EngineCall.add_to_qvec_loc alpha loc =>
    st.map (fun s => { s with written := s.written ++ [(loc, alpha)] })
  | EngineCall.assemble_qvec => st.map (fun s => { s with assembled := true })
  | _ => st

/-- The state contents after a sequence of library calls on an instance without
state. -/
def qvec_contents.after {R : Type} (calls : List (EngineCall R)) : Option (qvec_contents R) :=
  calls.foldl qvec_contents.apply none

/-- The entry of the state at a location: zero plus everything added there. -/
def qvec_contents.entry {R : Type} [CDouble R] (st : qvec_contents R) (loc : Int) : R :=
  ((st.written.filter (fun w => w.1 = loc)).map (fun w => w.2)).foldl (fun acc x => acc + x) 0

/-- An observer that succeeds on every call. -/
def quiet_observer : PyObject ℚ := PyObject.callable (fun _ => some PyValue.other)

/-! ## Basic facts -/

theorem created_ops_length (l : Int) (n : Nat) : (created_ops l n).length = n := by
  simp [created_ops]

theorem created_ops_subsystem (l : Int) (n : Nat) :
    (created_ops l n).map operator.subsystem = List.range n := by
  simp [created_ops, Function.comp_def]

/-- The precondition "qubits created" is what `create_qubits` establishes when
the instance has no qubits yet and a positive number of qubits was requested. -/
theorem create_qubits_establishes {R : Type} (self : QuaCInstance R) (num_levels : Option Int)
    (hq : self.qubits = none) (hn : 0 < self.num_qubits) :
    (QuaCInstance_create_qubits self num_levels).err = none ∧
    (QuaCInstance_create_qubits self num_levels).self.qubits_created = true := by
  simp [QuaCInstance_create_qubits, hq, hn, QuaCInstance.qubits_created, created_ops_length,
    created_ops_subsystem, Int.toNat_of_nonneg (le_of_lt hn)]

/-- On an instance with created qubits every index in `[0, num_qubits)` reads an
operator from the array, namely the operator of that subsystem. -/
theorem qubit_of_created {R : Type} (self : QuaCInstance R) (q : Int)
    (hc : self.qubits_created = true) (h0 : 0 ≤ q) (h1 : q < self.num_qubits) :
    ∃ op, self.qubit q = some op ∧ op.subsystem = q.toNat := by
  unfold QuaCInstance.qubits_created at hc
  cases hqs : self.qubits with
  | none => simp [hqs] at hc
  | some qs =>
    simp only [hqs, Bool.and_eq_true, decide_eq_true_eq] at hc
    obtain ⟨hlen, hsub⟩ := hc
    have hlt : q.toNat < qs.length := by omega
    refine ⟨qs.get ⟨q.toNat, hlt⟩, ?_, ?_⟩
    · simp [QuaCInstance.qubit, hqs, h0, List.getElem?_eq_getElem hlt]
    · have h := congrArg (fun l => l.get? q.toNat) hsub
      simp [List.getElem?_eq_getElem hlt, List.getElem?_range hlt] at h
      simpa using h

/-! ## Composite dissipator and coupling helpers -/

/-- C1. On an instance with created qubits and for a valid index `q`,
`add_lindblad_thermal_coupling(q, therm_1, n_therm)` returns without error,
leaves the instance record unchanged and issues exactly two `add_lin_term`
calls: first rate `therm_1 * (n + 1)` on the single operand `qubits[q]`, then
rate `therm_1 * n` on the single operand `qubits[q]->dag`, where `n` is
`n_therm`, or `0.5` when the argument is omitted.  Whatever the term lists were
before, the Lindblad list afterwards is the old list followed by these two
terms and the Hamiltonian list is the old one. -/
theorem C1_thermal_coupling_two_terms {R : Type} [CDouble R] (self : QuaCInstance R) (q : Int)
    (therm_1 : R) (n_therm : Option R)
    (hc : self.qubits_created = true) (h0 : 0 ≤ q) (h1 : q < self.num_qubits) :
    ∃ op, self.qubit q = some op ∧
      QuaCInstance_add_lindblad_thermal_coupling self q therm_1 n_therm =
        Outcome.ret ⟨none, self,
          [EngineCall.add_lin_term (therm_1 * (n_therm.getD CDouble.half + 1)) [op],
           EngineCall.add_lin_term (therm_1 * n_therm.getD CDouble.half) [op.dag]]⟩ ∧
      ∀ sys : qsystem R,
        (QuaCInstance_add_lindblad_thermal_coupling self q therm_1 n_therm).system_after sys =
          some { ham := sys.ham,
                 lin := sys.lin ++
                  [⟨therm_1 * (n_therm.getD CDouble.half + 1), [op], none⟩,
                   ⟨therm_1 * n_therm.getD CDouble.half, [op.dag], none⟩] } := by
  obtain ⟨op, hop, _⟩ := qubit_of_created self q hc h0 h1
  have hlt : ¬ q ≥ self.num_qubits := not_le.mpr h1
  have hcall : QuaCInstance_add_lindblad_thermal_coupling self q therm_1 n_therm =
      Outcome.ret ⟨none, self,
        [EngineCall.add_lin_term (therm_1 * (n_therm.getD CDouble.half + 1)) [op],
         EngineCall.add_lin_term (therm_1 * n_therm.getD CDouble.half) [op.dag]]⟩ := by
    simp [QuaCInstance_add_lindblad_thermal_coupling, hlt, hop]
  refine ⟨op, hop, hcall, ?_⟩
  intro sys
  rw [hcall]
  simp [Outcome.system_after, qsystem.after, qsystem.apply]

/-- C1, evaluated: on the two-qubit instance, `add_lindblad_thermal_coupling(1,
3, 2)` issues the rates `3 * (2 + 1)` on `qubits[1]` and `3 * 2` on
`qubits[1]->dag`, and with `n_therm` omitted the rates `3 * (0.5 + 1)` and
`3 * 0.5`. -/
theorem C1_thermal_coupling_two_terms_witness :
    two_qubits.qubits_created = true ∧ (0 : Int) ≤ 1 ∧ (1 : Int) < two_qubits.num_qubits ∧
    QuaCInstance_add_lindblad_thermal_coupling two_qubits 1 3 (some 2) =
      Outcome.ret ⟨none, two_qubits,
        [EngineCall.add_lin_term (3 * (2 + 1)) [⟨1, 2, op_role.lowering⟩],
         EngineCall.add_lin_term (3 * 2) [⟨1, 2, op_role.raising⟩]]⟩ ∧
    QuaCInstance_add_lindblad_thermal_coupling two_qubits 1 3 none =
      Outcome.ret ⟨none, two_qubits,
        [EngineCall.add_lin_term (3 * (1 / 2 + 1)) [⟨1, 2, op_role.lowering⟩],
         EngineCall.add_lin_term (3 * (1 / 2)) [⟨1, 2, op_role.raising⟩]]⟩ := by
  refine ⟨by decide, by decide, by decide, ?_, ?_⟩
  · obtain ⟨op, hop, hcall, _⟩ :=
      C1_thermal_coupling_two_terms two_qubits 1 3 (some 2) (by decide) (by decide) (by decide)
    have hop1 : two_qubits.qubit 1 = some ⟨1, 2, op_role.lowering⟩ := by decide
    rw [hop1] at hop
    cases hop
    exact hcall
  · obtain ⟨op, hop, hcall, _⟩ :=
      C1_thermal_coupling_two_terms two_qubits 1 3 none (by decide) (by decide) (by decide)
    have hop1 : two_qubits.qubit 1 = some ⟨1, 2, op_role.lowering⟩ := by decide
    rw [hop1] at hop
    cases hop
    exact hcall

/-- C2. On an instance with created qubits and for valid indices `i ≠ j`,
`add_lindblad_cross_coupling(i, j, c)` issues exactly two `add_lin_term` calls
and `add_ham_cross_coupling(i, j, c)` exactly two `add_ham_term` calls, both
with coefficient `c` and the products `(qubits[i]->dag, qubits[j])` and
`(qubits[i], qubits[j]->dag)`; each call extends its own term list by these two
terms and leaves the other list as it was.  With `i` and `j` swapped the two
methods issue `(qubits[j]->dag, qubits[i])` and `(qubits[j], qubits[i]->dag)`,
which are the same two operator products in the opposite order. -/
theorem C2_cross_coupling_two_terms {R : Type} (self : QuaCInstance R) (i j : Int) (c : R)
    (hc : self.qubits_created = true) (hi0 : 0 ≤ i) (hi1 : i < self.num_qubits)
    (hj0 : 0 ≤ j) (hj1 : j < self.num_qubits) (hij : i ≠ j) :
    ∃ a b, self.qubit i = some a ∧ self.qubit j = some b ∧
      QuaCInstance_add_lindblad_cross_coupling self i j c =
        Outcome.ret ⟨none, self,
          [EngineCall.add_lin_term c [a.dag, b], EngineCall.add_lin_term c [a, b.dag]]⟩ ∧
      QuaCInstance_add_ham_cross_coupling self i j c =
        Outcome.ret ⟨none, self,
          [EngineCall.add_ham_term c [a.dag, b], EngineCall.add_ham_term c [a, b.dag]]⟩ ∧
      (∀ sys : qsystem R,
        (QuaCInstance_add_lindblad_cross_coupling self i j c).system_after sys =
          some { ham := sys.ham,
                 lin := sys.lin ++ [⟨c, [a.dag, b], none⟩, ⟨c, [a, b.dag], none⟩] }) ∧
      (∀ sys : qsystem R,
        (QuaCInstance_add_ham_cross_coupling self i j c).system_after sys =
          some { ham := sys.ham ++ [⟨c, [a.dag, b], none⟩, ⟨c, [a, b.dag], none⟩],
                 lin := sys.lin }) ∧
      QuaCInstance_add_lindblad_cross_coupling self j i c =
        Outcome.ret ⟨none, self,
          [EngineCall.add_lin_term c [b.dag, a], EngineCall.add_lin_term c [b, a.dag]]⟩ ∧
      QuaCInstance_add_ham_cross_coupling self j i c =
        Outcome.ret ⟨none, self,
          [EngineCall.add_ham_term c [b.dag, a], EngineCall.add_ham_term c [b, a.dag]]⟩ ∧
      same_product [b.dag, a] [a, b.dag] = true ∧
      same_product [b, a.dag] [a.dag, b] = true := by
  obtain ⟨a, ha, hasub⟩ := qubit_of_created self i hc hi0 hi1
  obtain ⟨b, hb, hbsub⟩ := qubit_of_created self j hc hj0 hj1
  have hilt : ¬ i ≥ self.num_qubits := not_le.mpr hi1
  have hjlt : ¬ j ≥ self.num_qubits := not_le.mpr hj1
  have hne : a.subsystem ≠ b.subsystem := by
    rw [hasub, hbsub]
    omega
  have hlin : QuaCInstance_add_lindblad_cross_coupling self i j c =
      Outcome.ret ⟨none, self,
        [EngineCall.add_lin_term c [a.dag, b], EngineCall.add_lin_term c [a, b.dag]]⟩ := by
    simp [QuaCInstance_add_lindblad_cross_coupling, hilt, hjlt, ha, hb]
  have hham : QuaCInstance_add_ham_cross_coupling self i j c =
      Outcome.ret ⟨none, self,
        [EngineCall.add_ham_term c [a.dag, b], EngineCall.add_ham_term c [a, b.dag]]⟩ := by
    simp [QuaCInstance_add_ham_cross_coupling, hilt, hjlt, ha, hb]
  refine ⟨a, b, ha, hb, hlin, hham, ?_, ?_, ?_, ?_, ?_, ?_⟩
  · intro sys
    rw [hlin]
    simp [Outcome.system_after, qsystem.after, qsystem.apply]
  · intro sys
    rw [hham]
    simp [Outcome.system_after, qsystem.after, qsystem.apply]
  · simp [QuaCInstance_add_lindblad_cross_coupling, hilt, hjlt, ha, hb]
  · simp [QuaCInstance_add_ham_cross_coupling, hilt, hjlt, ha, hb]
  · have hne2 : b.subsystem ≠ a.subsystem := fun h => hne h.symm
    simp [same_product, operator.dag, hne2]
  · have hne2 : b.subsystem ≠ a.subsystem := fun h => hne h.symm
    simp [same_product, operator.dag, hne2]

/-- C2, evaluated on the two-qubit instance with `i = 0`, `j = 1`, `c = 5`. -/
theorem C2_cross_coupling_two_terms_witness :
    two_qubits.qubits_created = true ∧ (0 : Int) ≤ 0 ∧ (0 : Int) < two_qubits.num_qubits ∧
    (0 : Int) ≤ 1 ∧ (1 : Int) < two_qubits.num_qubits ∧ (0 : Int) ≠ 1 ∧
    QuaCInstance_add_lindblad_cross_coupling two_qubits 0 1 5 =
      Outcome.ret ⟨none, two_qubits,
        [EngineCall.add_lin_term 5 [⟨0, 2, op_role.raising⟩, ⟨1, 2, op_role.lowering⟩],
         EngineCall.add_lin_term 5 [⟨0, 2, op_role.lowering⟩, ⟨1, 2, op_role.raising⟩]]⟩ ∧
    QuaCInstance_add_ham_cross_coupling two_qubits 0 1 5 =
      Outcome.ret ⟨none, two_qubits,
        [EngineCall.add_ham_term 5 [⟨0, 2, op_role.raising⟩, ⟨1, 2, op_role.lowering⟩],
         EngineCall.add_ham_term 5 [⟨0, 2, op_role.lowering⟩, ⟨1, 2, op_role.raising⟩]]⟩ := by
  refine ⟨by decide, by decide, by decide, by decide, by decide, by decide, ?_⟩
  obtain ⟨a, b, ha, hb, hlin, hham, _⟩ :=
    C2_cross_coupling_two_terms two_qubits 0 1 5 (by decide) (by decide) (by decide)
      (by decide) (by decide) (by decide)
  have ha0 : two_qubits.qubit 0 = some ⟨0, 2, op_role.lowering⟩ := by decide
  have hb1 : two_qubits.qubit 1 = some ⟨1, 2, op_role.lowering⟩ := by decide
  rw [ha0] at ha
  rw [hb1] at hb
  cases ha
  cases hb
  exact ⟨hlin, hham⟩

/-- C3. On an instance with created qubits and for a valid index `q`,
`add_lindblad_emission(q, γ)` issues exactly one `add_lin_term` call with rate
`γ` on the operand `qubits[q]` itself, and `add_lindblad_dephasing(q, γ)`
exactly one with rate `γ` on the number operator `qubits[q]->n`; both return
without error, extend the Lindblad list by that one term and leave the
Hamiltonian list as it was. -/
theorem C3_single_operand_dissipators {R : Type} (self : QuaCInstance R) (q : Int) (γ : R)
    (hc : self.qubits_created = true) (h0 : 0 ≤ q) (h1 : q < self.num_qubits) :
    ∃ op, self.qubit q = some op ∧
      QuaCInstance_add_lindblad_emission self q γ =
        Outcome.ret ⟨none, self, [EngineCall.add_lin_term γ [op]]⟩ ∧
      QuaCInstance_add_lindblad_dephasing self q γ =
        Outcome.ret ⟨none, self, [EngineCall.add_lin_term γ [op.n]]⟩ ∧
      (∀ sys : qsystem R,
        (QuaCInstance_add_lindblad_emission self q γ).system_after sys =
          some { ham := sys.ham, lin := sys.lin ++ [⟨γ, [op], none⟩] }) ∧
      (∀ sys : qsystem R,
        (QuaCInstance_add_lindblad_dephasing self q γ).system_after sys =
          some { ham := sys.ham, lin := sys.lin ++ [⟨γ, [op.n], none⟩] }) := by
  obtain ⟨op, hop, _⟩ := qubit_of_created self q hc h0 h1
  have hlt : ¬ q ≥ self.num_qubits := not_le.mpr h1
  have hem : QuaCInstance_add_lindblad_emission self q γ =
      Outcome.ret ⟨none, self, [EngineCall.add_lin_term γ [op]]⟩ := by
    simp [QuaCInstance_add_lindblad_emission, hop]
  have hde : QuaCInstance_add_lindblad_dephasing self q γ =
      Outcome.ret ⟨none, self, [EngineCall.add_lin_term γ [op.n]]⟩ := by
    simp [QuaCInstance_add_lindblad_dephasing, hlt, hop]
  refine ⟨op, hop, hem, hde, ?_, ?_⟩
  · intro sys
    rw [hem]
    simp [Outcome.system_after, qsystem.after, qsystem.apply]
  · intro sys
    rw [hde]
    simp [Outcome.system_after, qsystem.after, qsystem.apply]

/-- C3, evaluated on the two-qubit instance with `q = 1`, `γ = 7`. -/
theorem C3_single_operand_dissipators_witness :
    two_qubits.qubits_created = true ∧ (0 : Int) ≤ 1 ∧ (1 : Int) < two_qubits.num_qubits ∧
    QuaCInstance_add_lindblad_emission two_qubits 1 7 =
      Outcome.ret ⟨none, two_qubits, [EngineCall.add_lin_term 7 [⟨1, 2, op_role.lowering⟩]]⟩ ∧
    QuaCInstance_add_lindblad_dephasing two_qubits 1 7 =
      Outcome.ret ⟨none, two_qubits, [EngineCall.add_lin_term 7 [⟨1, 2, op_role.number⟩]]⟩ := by
  refine ⟨by decide, by decide, by decide, ?_⟩
  obtain ⟨op, hop, hem, hde, _⟩ :=
    C3_single_operand_dissipators two_qubits 1 7 (by decide) (by decide) (by decide)
  have hop1 : two_qubits.qubit 1 = some ⟨1, 2, op_role.lowering⟩ := by decide
  rw [hop1] at hop
  cases hop
  exact ⟨hem, hde⟩

/-! ## Lifecycle of the density matrix -/

/-- As long as `create_density_matrix` has not been called, `rho` is `NULL`. -/
theorem rho_none_of_without_dm {R : Type} (self : QuaCInstance R) (h : without_dm self) :
    self.rho = none := by
  induction h with
  | new => rfl
  | init s n tsm _ ih =>
    cases n <;> cases tsm <;> simpa [QuaCInstance_init] using ih
  | create_qubits s l _ ih =>
    unfold QuaCInstance_create_qubits
    cases hq : s.qubits with
    | some qs => simpa [hq] using ih
    | none =>
      by_cases hn : 0 < s.num_qubits
      · simpa [hq, hn] using ih
      · simpa [hq, hn] using ih
  | set_num_qubits s n _ ih => simpa using ih
  | set_ts_monitor s cb _ ih => simpa using ih

/-- C4. When the density matrix of an instance has already been created,
`create_density_matrix` sets the RuntimeError "The density matrix for this
QuaC instance has already been created!", hands the record back unchanged
(the existing state handle included) and issues no library call: no state is
allocated, written to or assembled. -/
theorem C4_create_dm_twice_fails {R : Type} [CDouble R] (self : QuaCInstance R)
    (hrho : self.rho ≠ none) :
    QuaCInstance_create_dm self =
      ⟨some ⟨PyExc.RuntimeError,
        "The density matrix for this QuaC instance has already been created!"⟩, self, []⟩ := by
  unfold QuaCInstance_create_dm
  cases h : self.rho with
  | none => exact absurd h hrho
  | some v => rfl

/-- C4, evaluated: a second `create_density_matrix()` on the instance with two
qubits. -/
theorem C4_create_dm_twice_fails_witness :
    two_qubits_dm.rho ≠ none ∧
    QuaCInstance_create_dm two_qubits_dm =
      ⟨some ⟨PyExc.RuntimeError,
        "The density matrix for this QuaC instance has already been created!"⟩,
        two_qubits_dm, []⟩ :=
  ⟨by decide, C4_create_dm_twice_fails two_qubits_dm (by decide)⟩

/-- C5. On an instance whose density matrix was never created (`rho` is `NULL`,
which holds on every record reached without `create_density_matrix`), `run`
sets the RuntimeError "The density matrix for this QuaC instance has not been
created!" for every `end_time` and every choice of the optional `dt`,
`start_time` and `max_steps`, hands back the record unchanged and issues no
library call: neither `construct_matrix`, nor `set_ts_monitor_ctx`, nor
`time_step_sys`. -/
theorem C5_run_without_dm_fails {R : Type} [CDouble R] (self : QuaCInstance R) (end_time : R)
    (dt start_time : Option R) (max_steps : Option Int) (hrho : self.rho = none) :
    QuaCInstance_run self end_time dt start_time max_steps =
      ⟨some ⟨PyExc.RuntimeError,
        "The density matrix for this QuaC instance has not been created!"⟩, self, []⟩ := by
  simp [QuaCInstance_run, hrho]

/-- C5, evaluated: `run(10, dt=1, max_steps=5)` on the two-qubit instance
before `create_density_matrix()`. -/
theorem C5_run_without_dm_fails_witness :
    two_qubits.rho = none ∧
    QuaCInstance_run two_qubits 10 (some 1) none (some 5) =
      ⟨some ⟨PyExc.RuntimeError,
        "The density matrix for this QuaC instance has not been created!"⟩, two_qubits, []⟩ :=
  ⟨by decide, C5_run_without_dm_fails two_qubits 10 (some 1) none (some 5) (by decide)⟩

/-! ## Gates -/

/-- C6, as stated, fails: with both targets equal (`qubit1 = qubit2 = 0`),
`add_gate("CNOT", 0, 0)` sets no error and appends the gate to the empty
circuit. -/
theorem C6_equal_targets_accepted :
    gate_of_name "CNOT" = some gate_type.CNOT ∧
    gate_type.toInt gate_type.CNOT < 0 ∧
    QuaCCircuit_add_gate gate_type.toInt empty_circuit "CNOT" 0 (some 0) none none none none =
      ⟨none, ⟨⟨0, [⟨gate_type.CNOT, [0, 0], [], 0⟩]⟩⟩,
        [EngineCall.add_gate_to_circuit_sys 0 gate_type.CNOT [0, 0] []]⟩ := by
  refine ⟨by decide, by decide, ?_⟩
  rfl

/-- C6, amended.  Let the enumerators of the two-qubit gates be the negative
ones.  For every circuit and every gate name that selects a two-qubit gate
(CNOT, CZ, CXZ, CZX, CmZ), `add_gate` sets the RuntimeError "qubit2 must be
specified for a two-qubit gate!", leaves the circuit unchanged and issues no
library call when `qubit2` is missing or negative; when a non-negative
`qubit2` is given it sets no error and appends the gate with the targets
`(qubit1, qubit2)`, whether or not the two targets differ. -/
theorem C6_two_qubit_gate_needs_qubit2 {R : Type} [CDouble R] (code : gate_type → Int)
    (self : QuaCCircuit R) (gate_name : String) (g : gate_type) (qubit1 : Int)
    (theta phi lam time : Option R)
    (hsign : ∀ g, code g < 0 ↔ g.two_qubit = true)
    (hname : gate_of_name gate_name = some g) (hg : g.two_qubit = true) :
    QuaCCircuit_add_gate code self gate_name qubit1 none theta phi lam time =
      ⟨some ⟨PyExc.RuntimeError, "qubit2 must be specified for a two-qubit gate!"⟩, self, []⟩ ∧
    ∀ qubit2 : Int,
      (qubit2 < 0 →
        QuaCCircuit_add_gate code self gate_name qubit1 (some qubit2) theta phi lam time =
          ⟨some ⟨PyExc.RuntimeError, "qubit2 must be specified for a two-qubit gate!"⟩,
            self, []⟩) ∧
      (0 ≤ qubit2 →
        QuaCCircuit_add_gate code self gate_name qubit1 (some qubit2) theta phi lam time =
          ⟨none,
            ⟨⟨self.c.start_time,
              self.c.gate_list ++ [⟨g, [qubit1, qubit2], [], time.getD 0⟩]⟩⟩,
            [EngineCall.add_gate_to_circuit_sys (time.getD 0) g [qubit1, qubit2] []]⟩) := by
  have hneg : code g < 0 := (hsign g).mpr hg
  refine ⟨?_, ?_⟩
  · simp [QuaCCircuit_add_gate, hname, hneg]
  · intro qubit2
    refine ⟨?_, ?_⟩
    · intro h2
      simp [QuaCCircuit_add_gate, hname, hneg, h2]
    · intro h2
      have h2n : ¬ qubit2 < 0 := not_lt.mpr h2
      simp [QuaCCircuit_add_gate, hname, hneg, h2n, add_gate_to_circuit_sys]

/-- C6 amended, evaluated on the empty circuit with the gate `CZ`:
`add_gate("cz", 0)` and `add_gate("cz", 0, -2)` fail, `add_gate("cz", 0, 1)` and
`add_gate("cz", 1, 1)` append. -/
theorem C6_two_qubit_gate_needs_qubit2_witness :
    (∀ g, gate_type.toInt g < 0 ↔ g.two_qubit = true) ∧
    gate_of_name "cz" = some gate_type.CZ ∧ gate_type.CZ.two_qubit = true ∧
    QuaCCircuit_add_gate gate_type.toInt empty_circuit "cz" 0 none none none none none =
      ⟨some ⟨PyExc.RuntimeError, "qubit2 must be specified for a two-qubit gate!"⟩,
        empty_circuit, []⟩ ∧
    QuaCCircuit_add_gate gate_type.toInt empty_circuit "cz" 0 (some (-2)) none none none none =
      ⟨some ⟨PyExc.RuntimeError, "qubit2 must be specified for a two-qubit gate!"⟩,
        empty_circuit, []⟩ ∧
    QuaCCircuit_add_gate gate_type.toInt empty_circuit "cz" 0 (some 1) none none none none =
      ⟨none, ⟨⟨0, [⟨gate_type.CZ, [0, 1], [], 0⟩]⟩⟩,
        [EngineCall.add_gate_to_circuit_sys 0 gate_type.CZ [0, 1] []]⟩ ∧
    QuaCCircuit_add_gate gate_type.toInt empty_circuit "cz" 1 (some 1) none none none none =
      ⟨none, ⟨⟨0, [⟨gate_type.CZ, [1, 1], [], 0⟩]⟩⟩,
        [EngineCall.add_gate_to_circuit_sys 0 gate_type.CZ [1, 1] []]⟩ := by
  have hsign : ∀ g, gate_type.toInt g < 0 ↔ g.two_qubit = true := by
    intro g
    cases g <;> decide
  have h0 := C6_two_qubit_gate_needs_qubit2 gate_type.toInt empty_circuit "cz" gate_type.CZ 0
    none none none none hsign (by decide) (by decide)
  have h1 := C6_two_qubit_gate_needs_qubit2 gate_type.toInt empty_circuit "cz" gate_type.CZ 1
    none none none none hsign (by decide) (by decide)
  exact ⟨hsign, by decide, by decide, h0.1, (h0.2 (-2)).1 (by decide), (h0.2 1).2 (by decide),
    (h1.2 1).2 (by decide)⟩

/-- C7. Let the enumerators of `gate_type` be distinct and those of the
two-qubit gates be the negative ones.  For every circuit, target `qubit1`, time
offset and caller-supplied (or omitted, then `0`) `theta`, `phi`, `lam`:
`add_gate` with a name selecting U3 appends a U3 gate with the angles
`(theta, phi, lam)`, with a name selecting U2 a U2 gate with the angles
`(M_PI / 2, phi, lam)`, and with a name selecting U1 a U1 gate with the angles
`(0, 0, lam)`; in each case the target is `qubit1` and the time offset is the
caller's `time`, whatever `qubit2` is.  The names "U1", "U2", "U3" select these
gates. -/
theorem C7_u_gate_angles {R : Type} [CDouble R] (code : gate_type → Int)
    (self : QuaCCircuit R) (gate_name : String) (qubit1 : Int) (qubit2 : Option Int)
    (theta phi lam time : Option R)
    (hsign : ∀ g, code g < 0 ↔ g.two_qubit = true)
    (hinj : ∀ a b, code a = code b → a = b) :
    (gate_of_name gate_name = some gate_type.U3 →
      QuaCCircuit_add_gate code self gate_name qubit1 qubit2 theta phi lam time =
        ⟨none,
          ⟨⟨self.c.start_time, self.c.gate_list ++
            [⟨gate_type.U3, [qubit1], [theta.getD 0, phi.getD 0, lam.getD 0], time.getD 0⟩]⟩⟩,
          [EngineCall.add_gate_to_circuit_sys (time.getD 0) gate_type.U3 [qubit1]
            [theta.getD 0, phi.getD 0, lam.getD 0]]⟩) ∧
    (gate_of_name gate_name = some gate_type.U2 →
      QuaCCircuit_add_gate code self gate_name qubit1 qubit2 theta phi lam time =
        ⟨none,
          ⟨⟨self.c.start_time, self.c.gate_list ++
            [⟨gate_type.U2, [qubit1], [CDouble.M_PI / CDouble.two, phi.getD 0, lam.getD 0],
              time.getD 0⟩]⟩⟩,
          [EngineCall.add_gate_to_circuit_sys (time.getD 0) gate_type.U2 [qubit1]
            [CDouble.M_PI / CDouble.two, phi.getD 0, lam.getD 0]]⟩) ∧
    (gate_of_name gate_name = some gate_type.U1 →
      QuaCCircuit_add_gate code self gate_name qubit1 qubit2 theta phi lam time =
        ⟨none,
          ⟨⟨self.c.start_time, self.c.gate_list ++
            [⟨gate_type.U1, [qubit1], [0, 0, lam.getD 0], time.getD 0⟩]⟩⟩,
          [EngineCall.add_gate_to_circuit_sys (time.getD 0) gate_type.U1 [qubit1]
            [0, 0, lam.getD 0]]⟩) ∧
    gate_of_name "U3" = some gate_type.U3 ∧ gate_of_name "U2" = some gate_type.U2 ∧
    gate_of_name "U1" = some gate_type.U1 := by
  have h3 : ¬ code gate_type.U3 < 0 := by
    intro h
    exact absurd ((hsign _).mp h) (by decide)
  have h2 : ¬ code gate_type.U2 < 0 := by
    intro h
    exact absurd ((hsign _).mp h) (by decide)
  have h1 : ¬ code gate_type.U1 < 0 := by
    intro h
    exact absurd ((hsign _).mp h) (by decide)
  have h23 : code gate_type.U2 ≠ code gate_type.U3 := fun h => absurd (hinj _ _ h) (by decide)
  have h13 : code gate_type.U1 ≠ code gate_type.U3 := fun h => absurd (hinj _ _ h) (by decide)
  have h12 : code gate_type.U1 ≠ code gate_type.U2 := fun h => absurd (hinj _ _ h) (by decide)
  refine ⟨?_, ?_, ?_, by decide, by decide, by decide⟩
  · intro hname
    simp [QuaCCircuit_add_gate, hname, h3, add_gate_to_circuit_sys]
  · intro hname
    simp [QuaCCircuit_add_gate, hname, h2, h23, add_gate_to_circuit_sys]
  · intro hname
    simp [QuaCCircuit_add_gate, hname, h1, h13, h12, add_gate_to_circuit_sys]

/-- C7, evaluated on the empty circuit: `add_gate("U2", 3, theta=7, phi=8,
lam=9, time=4)` stores the angles `(M_PI / 2, 8, 9)` and `add_gate("U1", 3,
theta=7, phi=8, lam=9, time=4)` the angles `(0, 0, 9)`, both on qubit `3` at
time `4`. -/
theorem C7_u_gate_angles_witness :
    (∀ g, gate_type.toInt g < 0 ↔ g.two_qubit = true) ∧
    (∀ a b, gate_type.toInt a = gate_type.toInt b → a = b) ∧
    QuaCCircuit_add_gate gate_type.toInt empty_circuit "U2" 3 none (some 7) (some 8) (some 9)
        (some 4) =
      ⟨none, ⟨⟨0, [⟨gate_type.U2, [3], [CDouble.M_PI / CDouble.two, 8, 9], 4⟩]⟩⟩,
        [EngineCall.add_gate_to_circuit_sys 4 gate_type.U2 [3]
          [CDouble.M_PI / CDouble.two, 8, 9]]⟩ ∧
    QuaCCircuit_add_gate gate_type.toInt empty_circuit "U1" 3 none (some 7) (some 8) (some 9)
        (some 4) =
      ⟨none, ⟨⟨0, [⟨gate_type.U1, [3], [0, 0, 9], 4⟩]⟩⟩,
        [EngineCall.add_gate_to_circuit_sys 4 gate_type.U1 [3] [0, 0, 9]]⟩ := by
  have hsign : ∀ g, gate_type.toInt g < 0 ↔ g.two_qubit = true := by
    intro g
    cases g <;> decide
  have hinj : ∀ a b, gate_type.toInt a = gate_type.toInt b → a = b := by
    intro a b
    cases a <;> cases b <;> decide
  have hU2 := (C7_u_gate_angles gate_type.toInt empty_circuit "U2" 3 none (some 7) (some 8)
    (some 9) (some 4) hsign hinj).2.1 (by decide)
  have hU1 := (C7_u_gate_angles gate_type.toInt empty_circuit "U1" 3 none (some 7) (some 8)
    (some 9) (some 4) hsign hinj).2.2.1 (by decide)
  exact ⟨hsign, hinj, hU2, hU1⟩

/-! ## Index validation of the term-adding methods -/

/-- C8, evaluated at failing inputs.  On the one-qubit instance
`add_lindblad_emission(1, 1.0)` raises nothing: the method has no range check
and reads `qubits[1]` past the end of the array, whereas its sibling
`add_lindblad_dephasing(1, 1.0)` raises "qubit index is out of range".  The
range check of the siblings misses negative indices
(`add_lindblad_dephasing(-1, 1.0)` reads `qubits[-1]`) and an array that was
never created (`add_ham_num(0, 1.0)` on `Instance(num_qubits=2)` without
`create_qubits()` reads through `NULL`). -/
theorem C8_index_not_validated :
    QuaCInstance_add_lindblad_emission one_qubit 1 1 = Outcome.undefined ∧
    QuaCInstance_add_lindblad_dephasing one_qubit 1 1 =
      Outcome.ret ⟨some ⟨PyExc.RuntimeError, "qubit index is out of range"⟩, one_qubit, []⟩ ∧
    QuaCInstance_add_lindblad_dephasing one_qubit (-1) 1 = Outcome.undefined ∧
    QuaCInstance_add_ham_num no_qubits 0 1 = Outcome.undefined :=
  ⟨rfl, rfl, rfl, rfl⟩

/-! ## The step monitor -/

/-- C9, as stated, fails: with an observer that raises, the step monitor hands
status `0` back to the library and leaves the Python error pending; over three
reported steps the run is not aborted and the observer is invoked at every
step. -/
theorem C9_observer_error_swallowed :
    PyObject_CallObject raising_observer [PyArg.self_object, PyArg.long 1, PyArg.double 1] = none ∧
    (ts_monitor two_qubits_raising 1 1).status = 0 ∧
    (ts_monitor two_qubits_raising 1 1).error_pending = true ∧
    (report_steps (ts_monitor two_qubits_raising) [(1, 1), (2, 2), (3, 3)]).status = 0 ∧
    (report_steps (ts_monitor two_qubits_raising) [(1, 1), (2, 2), (3, 3)]).invoked =
      [[PyArg.self_object, PyArg.long 1, PyArg.double 1],
       [PyArg.self_object, PyArg.long 2, PyArg.double 2],
       [PyArg.self_object, PyArg.long 3, PyArg.double 3]] := by
  refine ⟨rfl, rfl, rfl, rfl, rfl⟩

/-- The status handed back by the step monitor is always `0`. -/
theorem ts_monitor_status {R : Type} (self : QuaCInstance R) (step : Int) (time : R) :
    (ts_monitor self step time).status = 0 := by
  unfold ts_monitor
  cases self.ts_monitor_callback with
  | none => rfl
  | some cb =>
    cases cb with
    | Py_None => rfl
    | callable f =>
      simp only [PyObject_CallObject]
      cases f [PyArg.self_object, PyArg.long step, PyArg.double time] <;> rfl
    | plain => rfl

/-- With an observer stored, the step monitor calls it exactly once, with
`(instance, step, time)`. -/
theorem ts_monitor_invoked {R : Type} (self : QuaCInstance R) (cb : PyObject R) (step : Int)
    (time : R) (hcb : self.ts_monitor_callback = some cb) (hnone : cb ≠ PyObject.Py_None) :
    (ts_monitor self step time).invoked =
      [[PyArg.self_object, PyArg.long step, PyArg.double time]] := by
  unfold ts_monitor
  rw [hcb]
  cases cb with
  | Py_None => exact absurd rfl hnone
  | callable f =>
    simp only [PyObject_CallObject]
    cases f [PyArg.self_object, PyArg.long step, PyArg.double time] <;> rfl
  | plain => rfl

/-- When the call of the stored observer fails, the step monitor leaves the
Python error pending. -/
theorem ts_monitor_error_pending {R : Type} (self : QuaCInstance R) (cb : PyObject R)
    (step : Int) (time : R) (hcb : self.ts_monitor_callback = some cb)
    (hnone : cb ≠ PyObject.Py_None)
    (hfail : PyObject_CallObject cb [PyArg.self_object, PyArg.long step, PyArg.double time] =
      none) :
    (ts_monitor self step time).error_pending = true := by
  unfold ts_monitor
  rw [hcb]
  cases cb with
  | Py_None => exact absurd rfl hnone
  | callable f =>
    simp only [PyObject_CallObject] at hfail ⊢
    rw [hfail]
  | plain => rfl

/-- C9, amended.  For every instance and every step reported by the library the
step monitor hands back status `0` (success), also when the observer signalled
an error; in that case the Python error is left pending and nothing is
reported to the library.  Consequently no run is aborted by the monitor: over
every sequence of reported steps the final status is `0` and, when an observer
is stored, it is invoked once for every reported step, in order, whether or
not earlier invocations failed. -/
theorem C9_monitor_always_succeeds {R : Type} (self : QuaCInstance R) (cb : PyObject R)
    (hcb : self.ts_monitor_callback = some cb) (hnone : cb ≠ PyObject.Py_None) :
    (∀ (step : Int) (time : R),
      (ts_monitor self step time).status = 0 ∧
      (PyObject_CallObject cb [PyArg.self_object, PyArg.long step, PyArg.double time] = none →
        (ts_monitor self step time).error_pending = true)) ∧
    ∀ events : List (Int × R),
      (report_steps (ts_monitor self) events).status = 0 ∧
      (report_steps (ts_monitor self) events).invoked =
        events.map (fun e => [PyArg.self_object, PyArg.long e.1, PyArg.double e.2]) := by
  refine ⟨fun step time => ⟨ts_monitor_status self step time,
    ts_monitor_error_pending self cb step time hcb hnone⟩, ?_⟩
  intro events
  induction events with
  | nil => exact ⟨rfl, rfl⟩
  | cons e rest ih =>
    obtain ⟨step, time⟩ := e
    have hs := ts_monitor_status self step time
    have hi := ts_monitor_invoked self cb step time hcb hnone
    simp only [report_steps, hs, ne_eq, not_true_eq_false, if_false, hi, List.map_cons]
    exact ⟨ih.1, by rw [ih.2]; rfl⟩

/-- C9 amended, evaluated on the instance with the raising observer and two
reported steps. -/
theorem C9_monitor_always_succeeds_witness :
    two_qubits_raising.ts_monitor_callback = some raising_observer ∧
    (ts_monitor two_qubits_raising 1 1).status = 0 ∧
    (ts_monitor two_qubits_raising 1 1).error_pending = true ∧
    (report_steps (ts_monitor two_qubits_raising) [(1, 1), (2, 2)]).status = 0 ∧
    (report_steps (ts_monitor two_qubits_raising) [(1, 1), (2, 2)]).invoked =
      [[PyArg.self_object, PyArg.long 1, PyArg.double 1],
       [PyArg.self_object, PyArg.long 2, PyArg.double 2]] := by
  have h := C9_monitor_always_succeeds two_qubits_raising raising_observer rfl
    (by simp [raising_observer])
  exact ⟨rfl, (h.1 1 1).1, (h.1 1 1).2 rfl, (h.2 [(1, 1), (2, 2)]).1, (h.2 [(1, 1), (2, 2)]).2⟩

/-! ## Time-dependent Hamiltonian terms -/

/-- Scaling a complex value by `1.0` gives the value back. -/
theorem CComplex.scale_one {R : Type} [CDouble R] (z : CComplex R) : CComplex.scale 1 z = z := by
  cases z
  simp [CComplex.scale, CDouble.one_mul_exact]

/-- The evaluator hands back exactly the complex value returned by a callable
context. -/
theorem time_dep_cb_complex {R : Type} [CDouble R] (fn : List (PyArg R) → Option (PyValue R))
    (t : R) (v : CComplex R) (hv : fn [PyArg.double t] = some (PyValue.complex v)) :
    time_dep_cb t (PyObject.callable fn) = v := by
  simp [time_dep_cb, PyObject_CallObject, hv, PyComplex_AsCComplex]

/-- C10. On an instance with created qubits, for valid indices `i`, `j` and
every caller-supplied object `f`: `add_ham_num_time_dep(i, f)` issues exactly
one `add_ham_term_time_dep` call with base coefficient `1.0`, the context `f`
itself and the operand `qubits[i]->n`, and
`add_ham_cross_coupling_time_dep(i, j, f)` exactly two, with base coefficient
`1.0`, the same context `f` and the products `(qubits[i]->dag, qubits[j])` and
`(qubits[i], qubits[j]->dag)`; the Hamiltonian list is extended by these terms
and the Lindblad list is left as it was.  Whenever `f` is a callable that
returns the complex value `v` at time `t`, the stored evaluator
`time_dep_cb(t, f)` returns exactly `v`, and the effective coefficient
`base_coefficient * evaluator(t, context)` of each of these terms at `t` is
`v`. -/
theorem C10_time_dependent_terms {R : Type} [CDouble R] (self : QuaCInstance R) (i j : Int)
    (f : PyObject R)
    (hc : self.qubits_created = true) (hi0 : 0 ≤ i) (hi1 : i < self.num_qubits)
    (hj0 : 0 ≤ j) (hj1 : j < self.num_qubits) :
    ∃ a b, self.qubit i = some a ∧ self.qubit j = some b ∧
      QuaCInstance_add_ham_num_time_dep self i f =
        Outcome.ret ⟨none, self, [EngineCall.add_ham_term_time_dep 1 f [a.n]]⟩ ∧
      QuaCInstance_add_ham_cross_coupling_time_dep self i j f =
        Outcome.ret ⟨none, self,
          [EngineCall.add_ham_term_time_dep 1 f [a.dag, b],
           EngineCall.add_ham_term_time_dep 1 f [a, b.dag]]⟩ ∧
      (∀ sys : qsystem R,
        (QuaCInstance_add_ham_num_time_dep self i f).system_after sys =
          some { ham := sys.ham ++ [⟨1, [a.n], some f⟩], lin := sys.lin }) ∧
      (∀ sys : qsystem R,
        (QuaCInstance_add_ham_cross_coupling_time_dep self i j f).system_after sys =
          some { ham := sys.ham ++ [⟨1, [a.dag, b], some f⟩, ⟨1, [a, b.dag], some f⟩],
                 lin := sys.lin }) ∧
      ∀ (fn : List (PyArg R) → Option (PyValue R)) (t : R) (v : CComplex R),
        f = PyObject.callable fn → fn [PyArg.double t] = some (PyValue.complex v) →
          time_dep_cb t f = v ∧
          (⟨1, [a.n], some f⟩ : term R).effective_coefficient t = v ∧
          (⟨1, [a.dag, b], some f⟩ : term R).effective_coefficient t = v ∧
          (⟨1, [a, b.dag], some f⟩ : term R).effective_coefficient t = v := by
  obtain ⟨a, ha, _⟩ := qubit_of_created self i hc hi0 hi1
  obtain ⟨b, hb, _⟩ := qubit_of_created self j hc hj0 hj1
  have hilt : ¬ i ≥ self.num_qubits := not_le.mpr hi1
  have hjlt : ¬ j ≥ self.num_qubits := not_le.mpr hj1
  have hnum : QuaCInstance_add_ham_num_time_dep self i f =
      Outcome.ret ⟨none, self, [EngineCall.add_ham_term_time_dep 1 f [a.n]]⟩ := by
    simp [QuaCInstance_add_ham_num_time_dep, hilt, ha]
  have hcross : QuaCInstance_add_ham_cross_coupling_time_dep self i j f =
      Outcome.ret ⟨none, self,
        [EngineCall.add_ham_term_time_dep 1 f [a.dag, b],
         EngineCall.add_ham_term_time_dep 1 f [a, b.dag]]⟩ := by
    simp [QuaCInstance_add_ham_cross_coupling_time_dep, hilt, hjlt, ha, hb]
  refine ⟨a, b, ha, hb, hnum, hcross, ?_, ?_, ?_⟩
  · intro sys
    rw [hnum]
    simp [Outcome.system_after, qsystem.after, qsystem.apply]
  · intro sys
    rw [hcross]
    simp [Outcome.system_after, qsystem.after, qsystem.apply]
  · intro fn t v hf hv
    subst hf
    have hcb := time_dep_cb_complex fn t v hv
    refine ⟨hcb, ?_, ?_, ?_⟩ <;>
      simp [term.effective_coefficient, hcb, CComplex.scale_one]

/-- C10, evaluated on the two-qubit instance with the coefficient
`t ↦ t + 2i`: the calls issued for `i = 0`, `j = 1`, and the evaluator and the
effective coefficient of the number term at `t = 3`. -/
theorem C10_time_dependent_terms_witness :
    two_qubits.qubits_created = true ∧ (0 : Int) ≤ 0 ∧ (0 : Int) < two_qubits.num_qubits ∧
    (0 : Int) ≤ 1 ∧ (1 : Int) < two_qubits.num_qubits ∧
    QuaCInstance_add_ham_num_time_dep two_qubits 0 ramp =
      Outcome.ret ⟨none, two_qubits,
        [EngineCall.add_ham_term_time_dep 1 ramp [⟨0, 2, op_role.number⟩]]⟩ ∧
    QuaCInstance_add_ham_cross_coupling_time_dep two_qubits 0 1 ramp =
      Outcome.ret ⟨none, two_qubits,
        [EngineCall.add_ham_term_time_dep 1 ramp
          [⟨0, 2, op_role.raising⟩, ⟨1, 2, op_role.lowering⟩],
         EngineCall.add_ham_term_time_dep 1 ramp
          [⟨0, 2, op_role.lowering⟩, ⟨1, 2, op_role.raising⟩]]⟩ ∧
    time_dep_cb 3 ramp = ⟨3, 2⟩ ∧
    (⟨1, [⟨0, 2, op_role.number⟩], some ramp⟩ : term ℚ).effective_coefficient 3 = ⟨3, 2⟩ := by
  refine ⟨by decide, by decide, by decide, by decide, by decide, ?_⟩
  obtain ⟨a, b, ha, hb, hnum, hcross, _, _, hev⟩ :=
    C10_time_dependent_terms two_qubits 0 1 ramp (by decide) (by decide) (by decide)
      (by decide) (by decide)
  have ha0 : two_qubits.qubit 0 = some ⟨0, 2, op_role.lowering⟩ := by decide
  have hb1 : two_qubits.qubit 1 = some ⟨1, 2, op_role.lowering⟩ := by decide
  rw [ha0] at ha
  rw [hb1] at hb
  cases ha
  cases hb
  obtain ⟨h1, h2, _, _⟩ := hev _ 3 ⟨3, 2⟩ rfl rfl
  exact ⟨hnum, hcross, h1, h2⟩

/-! ## Circuit import -/

/-- A tag cannot fold to two different lower-case words. -/
theorem strcasecmp_zero_excl (format a b : String)
    (hab : (a.data.map Char.toLower == b.data.map Char.toLower) = false)
    (ha : strcasecmp_zero format a = true) : strcasecmp_zero format b = false := by
  unfold strcasecmp_zero at ha ⊢
  rw [beq_iff_eq] at ha
  rw [ha]
  exact hab

/-- C11. For every format tag and file name, `initialize_and_read_qasm` calls
exactly one importer, with the file name, when the tag equals "quil"
(`quil_read`), "projectq" (`projectq_qasm_read`) or "qiskit"
(`qiskit_qasm_read`) up to the case of ASCII letters; it then sets no error and
returns the number of qubits the importer reports.  For every other tag it sets
the RuntimeError "Unknown qasm format!", calls no importer, returns `None` and
leaves the circuit unchanged. -/
theorem C11_read_qasm_dispatch {R : Type}
    (read : importer → String → circuit R → Int × circuit R) (self : QuaCCircuit R)
    (format filename : String) :
    (strcasecmp_zero format "quil" = true →
      QuaCCircuit_read_qasm read self format filename =
        ⟨none, ⟨(read importer.quil_read filename self.c).2⟩,
          some (read importer.quil_read filename self.c).1,
          [(importer.quil_read, filename)]⟩) ∧
    (strcasecmp_zero format "projectq" = true →
      QuaCCircuit_read_qasm read self format filename =
        ⟨none, ⟨(read importer.projectq_qasm_read filename self.c).2⟩,
          some (read importer.projectq_qasm_read filename self.c).1,
          [(importer.projectq_qasm_read, filename)]⟩) ∧
    (strcasecmp_zero format "qiskit" = true →
      QuaCCircuit_read_qasm read self format filename =
        ⟨none, ⟨(read importer.qiskit_qasm_read filename self.c).2⟩,
          some (read importer.qiskit_qasm_read filename self.c).1,
          [(importer.qiskit_qasm_read, filename)]⟩) ∧
    (strcasecmp_zero format "quil" = false → strcasecmp_zero format "projectq" = false →
      strcasecmp_zero format "qiskit" = false →
      QuaCCircuit_read_qasm read self format filename =
        ⟨some ⟨PyExc.RuntimeError, "Unknown qasm format!"⟩, self, none, []⟩) := by
  refine ⟨?_, ?_, ?_, ?_⟩
  · intro h
    simp [QuaCCircuit_read_qasm, h]
  · intro h
    have hq : strcasecmp_zero format "quil" = false :=
      strcasecmp_zero_excl format "projectq" "quil" (by decide) h
    simp [QuaCCircuit_read_qasm, h, hq]
  · intro h
    have hq : strcasecmp_zero format "quil" = false :=
      strcasecmp_zero_excl format "qiskit" "quil" (by decide) h
    have hp : strcasecmp_zero format "projectq" = false :=
      strcasecmp_zero_excl format "qiskit" "projectq" (by decide) h
    simp [QuaCCircuit_read_qasm, h, hq, hp]
  · intro hq hp hk
    simp [QuaCCircuit_read_qasm, hq, hp, hk]

/-- C11, evaluated on the empty circuit: the tag "QisKit" reaches
`qiskit_qasm_read`, the tag "qasm" reaches no importer. -/
theorem C11_read_qasm_dispatch_witness :
    strcasecmp_zero "QisKit" "qiskit" = true ∧
    QuaCCircuit_read_qasm sample_read empty_circuit "QisKit" "bell.qasm" =
      ⟨none, ⟨⟨0, [⟨gate_type.HADAMARD, [0], [0], 0⟩]⟩⟩, some 3,
        [(importer.qiskit_qasm_read, "bell.qasm")]⟩ ∧
    strcasecmp_zero "qasm" "quil" = false ∧ strcasecmp_zero "qasm" "projectq" = false ∧
    strcasecmp_zero "qasm" "qiskit" = false ∧
    QuaCCircuit_read_qasm sample_read empty_circuit "qasm" "bell.qasm" =
      ⟨some ⟨PyExc.RuntimeError, "Unknown qasm format!"⟩, empty_circuit, none, []⟩ := by
  have h := C11_read_qasm_dispatch sample_read empty_circuit "QisKit" "bell.qasm"
  have h2 := C11_read_qasm_dispatch sample_read empty_circuit "qasm" "bell.qasm"
  exact ⟨by decide, h.2.2.1 (by decide), by decide, by decide, by decide,
    h2.2.2.2 (by decide) (by decide) (by decide)⟩

/-! ## Module lifecycle -/

/-- C12, evaluated at the failing input `initialize(); finalize(); finalize()`.
The first `finalize()` finalizes the library and clears the flag; the second
one, with the flag already clear, finalizes the library again, whereas the
at-exit hook in the same state does nothing.  With the flag clear, the
creation of an instance fails with "QuaC must be initialized first!". -/
theorem C12_finalize_not_guarded :
    quac_initialize (some ["run.py"]) =
      some ⟨1, [ ModuleCall.QuaC_initialize 1 [some "run.py"], ModuleCall.Py_AtExit]⟩ ∧
    quac_finalize 1 = ⟨0, [ModuleCall.QuaC_finalize]⟩ ∧
    quac_finalize (quac_finalize 1).quac_initialized = ⟨0, [ModuleCall.QuaC_finalize]⟩ ∧
    finalize_atexit (quac_finalize 1).quac_initialized = ⟨0, []⟩ ∧
    QuaCInstance_new ℚ (quac_finalize 1).quac_initialized =
      ⟨some ⟨PyExc.RuntimeError, "QuaC must be initialized first!"⟩, none, []⟩ := by
  refine ⟨by decide, by decide, by decide, by decide, ?_⟩
  rfl

/-- While the loop index stays inside `sys.argv`, the loop copies the list into
`argv` slot by slot. -/
theorem quac_initialize_loop_inside (l : List String) :
    ∀ (k i : Nat) (argv : List (Option String)), argv.length = l.length → i + k = l.length →
      quac_initialize_loop (some l) k i argv = some (argv.take i ++ (l.drop i).map some) := by
  intro k
  induction k with
  | zero =>
    intro i argv hlen hi
    have hi2 : i = l.length := by omega
    subst hi2
    simp [quac_initialize_loop, ← hlen]
  | succ k ih =>
    intro i argv hlen hi
    have hlt : i < l.length := by omega
    have hget : PyList_GET_ITEM (some l) i = some l[i] := by
      simp [PyList_GET_ITEM, List.getElem?_eq_getElem hlt]
    have hlt2 : i < argv.length := by omega
    rw [quac_initialize_loop, hget]
    simp only
    rw [ih (i + 1) (argv.set i (some l[i])) (by simpa using hlen) (by omega)]
    congr 1
    have hset : (argv.set i (some l[i]))[i]? = some (some l[i]) := by
      rw [List.getElem?_set_self hlt2]
    have htake : List.take i (argv.set i (some l[i])) = List.take i argv := by
      rw [List.set_take]
      exact List.set_eq_of_length_le (by simp)
    rw [List.take_succ, hset, htake, List.drop_eq_getElem_cons hlt]
    simp only [Option.toList, List.map_cons, List.append_assoc, List.singleton_append]

/-- For a non-empty `sys.argv`, `initialize()` hands the library `argc` equal to
the length of the list and `argv` equal to its elements, every one of them read
inside the list. -/
theorem quac_initialize_nonempty (l : List String) (hl : 0 < l.length) :
    quac_initialize (some l) =
      some ⟨1, [ ModuleCall.QuaC_initialize l.length (l.map some), ModuleCall.Py_AtExit]⟩ := by
  have hloop := quac_initialize_loop_inside l l.length 0
    ((List.replicate l.length (none : Option String)).set 0 (some "quac")) (by simp) (by simp)
  simp [ quac_initialize, quac_initialize_argc, hl, hloop]

/-- C15, evaluated at the failing inputs.  When `sys.argv` is absent or empty,
`argc` is `1` and the first iteration of the copy loop reads element `0` of a
missing or empty list, so `initialize()` reads outside `sys.argv` and the
placeholder "quac" stored in `argv[0]` is never what the library receives.  For
the list `["run.py", "-n"]` the vector has length `2` and holds the two
elements. -/
theorem C15_argv_read_outside_list :
    quac_initialize_argc none = 1 ∧ quac_initialize_argc (some []) = 1 ∧
    PyList_GET_ITEM none 0 = none ∧ PyList_GET_ITEM (some []) 0 = none ∧
    quac_initialize none = none ∧ quac_initialize (some []) = none ∧
    quac_initialize (some ["run.py", "-n"]) =
      some ⟨1, [ ModuleCall.QuaC_initialize 2 [some "run.py", some "-n"],
        ModuleCall.Py_AtExit]⟩ := by
  decide

/-! ## The observer slot -/

/-- The argument tuples recorded by `ts_monitor` are those of the calls listed
by `ts_monitor_calls`. -/
theorem ts_monitor_invoked_eq_calls {R : Type} (self : QuaCInstance R) (step : Int) (time : R) :
    (ts_monitor self step time).invoked = (ts_monitor_calls self step time).map Prod.snd := by
  unfold ts_monitor ts_monitor_calls
  cases self.ts_monitor_callback with
  | none => rfl
  | some cb =>
    cases cb with
    | Py_None => rfl
    | callable f =>
      simp only [PyObject_CallObject]
      cases f [PyArg.self_object, PyArg.long step, PyArg.double time] <;> rfl
    | plain => rfl

/-- C13. An instance has one observer slot.  `__init__` with `ts_monitor` given
stores the new observer in place of the previous one, and leaves the slot as it
is when `ts_monitor` is omitted.  For every step event `(step, time)` the step
monitor calls the observer stored at that moment exactly once, with
`(instance, step, time)`, when it is not `None`, and calls nothing when it is
`None`.  After a replacement every call of the step monitor goes to the new
observer, so the replaced one is not called again. -/
theorem C13_single_observer_slot {R : Type} (self : QuaCInstance R) (num_qubits : Option Int)
    (new_observer : PyObject R) (step : Int) (time : R) :
    (QuaCInstance_init self num_qubits (some new_observer)).self.ts_monitor_callback =
      some new_observer ∧
    (QuaCInstance_init self num_qubits none).self.ts_monitor_callback =
      self.ts_monitor_callback ∧
    (∀ cb, self.ts_monitor_callback = some cb → cb ≠ PyObject.Py_None →
      ts_monitor_calls self step time =
        [(cb, [PyArg.self_object, PyArg.long step, PyArg.double time])] ∧
      (ts_monitor self step time).invoked =
        [[PyArg.self_object, PyArg.long step, PyArg.double time]]) ∧
    (self.ts_monitor_callback = some PyObject.Py_None →
      ts_monitor_calls self step time = [] ∧ (ts_monitor self step time).invoked = []) ∧
    (∀ call ∈ ts_monitor_calls (QuaCInstance_init self num_qubits (some new_observer)).self
        step time, call.1 = new_observer) := by
  have hslot : (QuaCInstance_init self num_qubits (some new_observer)).self.ts_monitor_callback =
      some new_observer := by
    cases num_qubits <;> rfl
  have hcalls : ∀ (s : QuaCInstance R) (cb : PyObject R), s.ts_monitor_callback = some cb →
      cb ≠ PyObject.Py_None →
      ts_monitor_calls s step time =
        [(cb, [PyArg.self_object, PyArg.long step, PyArg.double time])] := by
    intro s cb hcb hnone
    unfold ts_monitor_calls
    rw [hcb]
    cases cb with
    | Py_None => exact absurd rfl hnone
    | callable f => rfl
    | plain => rfl
  refine ⟨hslot, ?_, ?_, ?_, ?_⟩
  · cases num_qubits <;> rfl
  · intro cb hcb hnone
    refine ⟨hcalls self cb hcb hnone, ?_⟩
    rw [ts_monitor_invoked_eq_calls, hcalls self cb hcb hnone]
    rfl
  · intro hcb
    have h0 : ts_monitor_calls self step time = [] := by
      unfold ts_monitor_calls
      rw [hcb]
    refine ⟨h0, ?_⟩
    rw [ts_monitor_invoked_eq_calls, h0]
    rfl
  · intro call hmem
    by_cases hnone : new_observer = PyObject.Py_None
    · have h0 : ts_monitor_calls (QuaCInstance_init self num_qubits (some new_observer)).self
          step time = [] := by
        unfold ts_monitor_calls
        rw [hslot, hnone]
      rw [h0] at hmem
      exact absurd hmem (List.not_mem_nil call)
    · rw [hcalls _ new_observer hslot hnone] at hmem
      rw [List.mem_singleton.mp hmem]

/-- C13, evaluated: the instance with the raising observer is re-initialised
with the quiet one; the step `(4, 2)` then calls the quiet observer once and
leaves no error pending, and after `__init__(ts_monitor=None)` it calls
nothing. -/
theorem C13_single_observer_slot_witness :
    two_qubits_raising.ts_monitor_callback = some raising_observer ∧
    ts_monitor_calls two_qubits_raising 4 2 =
      [(raising_observer, [PyArg.self_object, PyArg.long 4, PyArg.double 2])] ∧
    (QuaCInstance_init two_qubits_raising none (some quiet_observer)).self.ts_monitor_callback =
      some quiet_observer ∧
    ts_monitor_calls (QuaCInstance_init two_qubits_raising none (some quiet_observer)).self 4 2 =
      [(quiet_observer, [PyArg.self_object, PyArg.long 4, PyArg.double 2])] ∧
    (ts_monitor (QuaCInstance_init two_qubits_raising none (some quiet_observer)).self 4
      2).error_pending = false ∧
    ts_monitor_calls (QuaCInstance_init two_qubits_raising none (some PyObject.Py_None)).self 4 2 =
      [] := by
  have h := C13_single_observer_slot two_qubits_raising none quiet_observer 4 2
  have h2 := C13_single_observer_slot
    (QuaCInstance_init two_qubits_raising none (some quiet_observer)).self none quiet_observer 4 2
  have h3 := C13_single_observer_slot
    (QuaCInstance_init two_qubits_raising none (some PyObject.Py_None)).self none quiet_observer
    4 2
  exact ⟨rfl, (h.2.2.1 raising_observer rfl (by simp [raising_observer])).1, h.1,
    (h2.2.2.1 quiet_observer rfl (by simp [quiet_observer])).1, rfl, (h3.2.2.2.1 rfl).1⟩

/-! ## Creation of the density matrix -/

/-- C14. Let adding `1.0` to `0.0` be exact.  On an instance without a density
matrix, `create_density_matrix` sets no error and issues, in this order,
`create_qvec_sys`, `add_to_qvec_loc(rho, 1.0, 0)` and `assemble_qvec`: the state
is created, exactly one value is written, `1.0` at location `0`, so that entry
`0` is `1.0` and every other entry is zero, and the state is assembled.
Afterwards the instance holds a state handle, `run` issues its three library
calls without error for all arguments, and `get_bitstring_probs` returns the
probabilities without error. -/
theorem C14_create_dm_ground_state {R : Type} [CDouble R] (self : QuaCInstance R)
    (hrho : self.rho = none) (hadd : (0 : R) + 1 = 1) :
    QuaCInstance_create_dm self =
      ⟨none, { self with rho := some qvec.handle },
        [EngineCall.create_qvec_sys, EngineCall.add_to_qvec_loc 1 0, EngineCall.assemble_qvec]⟩ ∧
    qvec_contents.after (QuaCInstance_create_dm self).calls = some ⟨[(0, 1)], true⟩ ∧
    (⟨[(0, 1)], true⟩ : qvec_contents R).entry 0 = 1 ∧
    (∀ loc : Int, loc ≠ 0 → (⟨[(0, 1)], true⟩ : qvec_contents R).entry loc = 0) ∧
    (QuaCInstance_create_dm self).self.rho = some qvec.handle ∧
    (∀ (end_time : R) (dt start_time : Option R) (max_steps : Option Int),
      QuaCInstance_run (QuaCInstance_create_dm self).self end_time dt start_time max_steps =
        ⟨none, (QuaCInstance_create_dm self).self,
          [EngineCall.construct_matrix, EngineCall.set_ts_monitor_ctx,
           EngineCall.time_step_sys (start_time.getD 0) end_time (dt.getD 1)
             (max_steps.getD (INT_MAX - 1))]⟩) ∧
    (∀ probs : List R,
      QuaCInstance_get_bitstring_probs probs (QuaCInstance_create_dm self).self =
        (none, some probs)) := by
  have hdm : QuaCInstance_create_dm self =
      ⟨none, { self with rho := some qvec.handle },
        [EngineCall.create_qvec_sys, EngineCall.add_to_qvec_loc 1 0,
          EngineCall.assemble_qvec]⟩ := by
    simp [QuaCInstance_create_dm, hrho]
  refine ⟨hdm, ?_, ?_, ?_, ?_, ?_, ?_⟩
  · rw [hdm]
    simp [qvec_contents.after, qvec_contents.apply]
  · simp [qvec_contents.entry, hadd]
  · intro loc hloc
    have hne : ¬ (0 : Int) = loc := fun h => hloc h.symm
    simp [qvec_contents.entry, hne]
  · rw [hdm]
  · intro end_time dt start_time max_steps
    rw [hdm]
    simp [QuaCInstance_run]
  · intro probs
    rw [hdm]
    simp [QuaCInstance_get_bitstring_probs]

/-- C14, evaluated on the two-qubit instance: the calls of
`create_density_matrix()`, the contents they leave, and the following
`run(10)` and `get_bitstring_probs()`. -/
theorem C14_create_dm_ground_state_witness :
    two_qubits.rho = none ∧ (0 : ℚ) + 1 = 1 ∧
    QuaCInstance_create_dm two_qubits =
      ⟨none, two_qubits_dm,
        [EngineCall.create_qvec_sys, EngineCall.add_to_qvec_loc 1 0, EngineCall.assemble_qvec]⟩ ∧
    qvec_contents.after (QuaCInstance_create_dm two_qubits).calls = some ⟨[(0, 1)], true⟩ ∧
    (⟨[(0, 1)], true⟩ : qvec_contents ℚ).entry 0 = 1 ∧
    (⟨[(0, 1)], true⟩ : qvec_contents ℚ).entry 3 = 0 ∧
    (QuaCInstance_run two_qubits_dm 10 none none none).err = none ∧
    QuaCInstance_get_bitstring_probs [1, 0, 0, 0] two_qubits_dm = (none, some [1, 0, 0, 0]) := by
  have h := C14_create_dm_ground_state two_qubits (by decide) (by norm_num)
  have hrun := h.2.2.2.2.2.1 10 none none none
  exact ⟨by decide, by norm_num, h.1, h.2.1, h.2.2.1, h.2.2.2.1 3 (by decide),
    congrArg Ret.err hrun, h.2.2.2.2.2.2 [1, 0, 0, 0]⟩

end QuaC
